import Mathlib

/-!
# The CSV data source of the vSphere provider

A shallow embedding of `dataSourceVSphereCSVRead`
(`vsphere/data_source_vsphere_csv.go`) together with the properties its
specification states about it.

Conventions of the embedding.

* A run ends in one of three ways (`Outcome`): it returns `nil` after
  `d.Set("result", &filtered)`, it returns an error, or it panics (a failed type
  assertion, an index out of range, a nil dereference or `check(err)`).
* A `map[string]interface{}` is an association list from keys to dynamically
  typed values (`Value`): a Go `int`, a `float64` (always integral here, so it is
  represented by the integer it holds) or a `string`.
* `int` is 64 bits wide.  Strings are valid UTF-8, so that the JSON round trip
  leaves them unchanged and splitting or suffix tests on characters agree with
  the byte-wise ones of package `strings`.
* Library behaviour the function relies on (`strconv.Atoi`, the field-count check
  of `encoding/csv`, the decoding of JSON numbers as `float64`, `time.Parse`,
  `time.Date`, `Time.Sub`, `Time.Format`) is embedded as documented by the
  library; inventory look-ups and the clock are parameters (`Env`).
-/

namespace VSphereCSV

/-! ## Outcomes -/

/-- The `fmt.Errorf` exits of `dataSourceVSphereCSVRead`. -/
inductive RunError
  /-- The error `cannot locate datacenter: %s`. -/
  | cannotLocateDatacenter
  /-- The error `error loading datastore cluster: %s`. -/
  | loadingDatastoreCluster
  /-- The error `Failed to read CSV file %q: %s`. -/
  | csvRead
  /-- The error `command %q produced invalid JSON: %s` (never raised: the text
  unmarshalled is the one just marshalled). -/
  | invalidJSON
  /-- The error `Invalid date format for expires. Format should be 'YYYY-MM-DD'`. -/
  | invalidDateFormat
  deriving DecidableEq

/-- How a piece of the function ends: normally with a value, by returning an
error to the caller, or by a run-time panic. -/
inductive Outcome (α : Type)
  | ok (a : α)
  | error (e : RunError)
  | panic
  deriving DecidableEq

/-- Sequencing: an error or a panic ends the run at once. -/
def Outcome.bind {α β : Type} (x : Outcome α) (f : α → Outcome β) : Outcome β :=
  match x with
  | .ok a => f a
  | .error e => .error e
  | .panic => .panic

/-! ## Dynamically typed values and maps -/

/-- The dynamic values held in a row: `int`, `float64` (integral) and `string`. -/
inductive Value
  | int (n : Int)
  | float (n : Int)
  | str (s : String)
  deriving DecidableEq

/-- A row, `map[string]interface{}`. -/
abbrev Item := List (String × Value)

/-- Map index `item[k]`; `none` is the nil interface of an absent key. -/
def get : Item → String → Option Value
  | [], _ => none
  | (k', v) :: rest, k => if k' = k then some v else get rest k

/-- Map assignment `item[k] = v`. -/
def set : Item → String → Value → Item
  | [], k, v => [(k, v)]
  | (k', v') :: rest, k, v => if k' = k then (k, v) :: rest else (k', v') :: set rest k v

/-- The keys of a map. -/
def keys (item : Item) : List String := item.map Prod.fst

/-- Index of a `map[string]interface{}` whose values are all strings (the schema
of `query` and `default_disks`). -/
def lookup : List (String × String) → String → Option String
  | [], _ => none
  | (k', v) :: rest, k => if k' = k then some v else lookup rest k

/-- The integer held by a numeric value. -/
def Value.toInt : Value → Option Int
  | .int n => some n
  | .float n => some n
  | .str _ => none

/-- The test `x == "" || x == nil` on an interface value. -/
def isEmptyOrNil : Option Value → Bool
  | none => true
  | some (.str s) => decide (s = "")
  | some _ => false

/-! ## `strconv.Atoi` -/

/-- ASCII decimal digit. -/
def isDigit (c : Char) : Bool := decide (48 ≤ c.toNat) && decide (c.toNat ≤ 57)

/-- Value of an ASCII decimal digit. -/
def digitVal (c : Char) : Nat := c.toNat - 48

/-- Result of `strconv.ParseUint(s, 10, 64)`. -/
inductive UintResult
  | ok (n : Nat)
  | invalid
  | outOfRange
  deriving DecidableEq

/-- The digit loop of `ParseUint`: a character that is no digit is a malformed
input, a value that leaves 64 bits is a range error, whichever comes first. -/
def parseUintLoop : List Char → Nat → UintResult
  | [], n => .ok n
  | c :: cs, n =>
    if isDigit c then
      if 2 ^ 64 ≤ n * 10 + digitVal c then .outOfRange
      else parseUintLoop cs (n * 10 + digitVal c)
    else .invalid

/-- The function `strconv.ParseUint(s, 10, 64)`. -/
def parseUint (s : List Char) : UintResult :=
  match s with
  | [] => .invalid
  | _ :: _ => parseUintLoop s 0

/-- The function `strconv.ParseInt(s, 10, 0)`: the value returned and whether an error came
with it (`0` on malformed input, the nearest bound on a range error). -/
def parseInt (s : List Char) : Int × Bool :=
  match s with
  | [] => (0, true)
  | c :: cs =>
    let neg := decide (c = '-')
    let body := if c = '+' ∨ c = '-' then cs else c :: cs
    match parseUint body with
    | .invalid => (0, true)
    | .outOfRange => if neg then (-(2 ^ 63 : Int), true) else ((2 ^ 63 : Int) - 1, true)
    | .ok un =>
      if !neg && decide (2 ^ 63 ≤ un) then ((2 ^ 63 : Int) - 1, true)
      else if neg && decide (2 ^ 63 < un) then (-(2 ^ 63 : Int), true)
      else (if neg then -(un : Int) else (un : Int), false)

/-- The function `strconv.Atoi`: the value and whether `err != nil`. -/
def atoi (s : String) : Int × Bool := parseInt s.data

/-! ## JSON numbers: `int` to `float64` and back -/

/-- Number of low bits a natural number has beyond the 53 bits of a `float64`
significand. -/
def excessBits : Nat → Nat → Nat
  | 0, _ => 0
  | fuel + 1, m => if m < 2 ^ 53 then 0 else excessBits fuel (m / 2) + 1

/-- Nearest `float64` to a natural number, ties to even. -/
def roundNat (m : Nat) : Nat :=
  let e := excessBits 64 m
  let q := m / 2 ^ e
  let r := m % 2 ^ e
  (if 2 ^ e < 2 * r ∨ (2 * r = 2 ^ e ∧ q % 2 = 1) then q + 1 else q) * 2 ^ e

/-- The `float64` that `json.Unmarshal` yields for the JSON number written by
`json.Marshal` for the `int` `n`. -/
def roundFloat64 (n : Int) : Int :=
  if n < 0 then -((roundNat n.natAbs : Nat) : Int) else ((roundNat n.natAbs : Nat) : Int)

/-- The conversion `int(f)` of a `float64`: exact inside the range of `int`,
otherwise the platform's value `ovf`. -/
def floatToInt (ovf : Int) (f : Int) : Int :=
  if -(2 ^ 63 : Int) ≤ f ∧ f < (2 ^ 63 : Int) then f else ovf

/-- The call of `json.MarshalIndent` followed by `json.Unmarshal` into
`[]map[string]interface{}`, on one value: numbers come back as `float64`. -/
def jsonValue : Value → Value
  | .int n => .float (roundFloat64 n)
  | .float f => .float f
  | .str s => .str s

/-- The JSON round trip on one row. -/
def jsonRoundTrip (row : Item) : Item := row.map (fun kv => (kv.1, jsonValue kv.2))

/-! ## Reading and normalising the records -/

/-- The fixed column list. -/
def columns : List String :=
  ["hostname", "address", "gateway", "subnet", "cpu", "memory", "vapp", "network",
   "template", "disk0", "disk1", "disk2", "disk3", "expires"]

/-- What the record lexer of `encoding/csv` hands to `Reader.Read` for one
record of the text: its cells, or an error of the lexer (a stray quote). -/
inductive ReadEvent
  | record (cells : List String)
  | parseError
  deriving DecidableEq

/-- The header test `for i, v := range record { if v != columns[i] ... }`;
`none` is the index-out-of-range panic of `columns[i]`. -/
def headerLoop : List String → List String → Bool → Option Bool
  | [], _, header => some header
  | _ :: _, [], _ => none
  | v :: vs, c :: cs, header => headerLoop vs cs (if v ≠ c then false else header)

/-- The cell coercion `row[k], err = strconv.Atoi(cell)`, keeping the text when
`err != nil`. -/
def coerce (cell : String) : Value :=
  if (atoi cell).2 then .str cell else .int (atoi cell).1

/-- The loop `for i, k := range columns { row[k] = ... record[i] ... }`;
`none` is the index-out-of-range panic of `record[i]`. -/
def normalizeLoop : List String → List String → Item → Option Item
  | [], _, row => some row
  | _ :: _, [], _ => none
  | k :: ks, c :: cs, row => normalizeLoop ks cs (set row k (coerce c))

/-- Normalisation of one record. -/
def normalizeRow (cells : List String) : Option Item := normalizeLoop columns cells []

/-- The read loop.  `fpr` is the reader's `FieldsPerRecord` (initially `0`: the
first record fixes the count, a later record with another count is
`ErrFieldCount`). -/
def readRows : Nat → List ReadEvent → List Item → Outcome (List Item)
  | _, [], rows => .ok rows
  | _, .parseError :: _, _ => .error .csvRead
  | fpr, .record cells :: rest, rows =>
    if 0 < fpr ∧ cells.length ≠ fpr then .error .csvRead
    else
      let fpr' := if fpr = 0 then cells.length else fpr
      match headerLoop cells columns true with
      | none => .panic
      | some true => readRows fpr' rest rows
      | some false =>
        match normalizeRow cells with
        | none => .panic
        | some row => readRows fpr' rest (rows ++ [row])

/-! ## Calendar dates (package `time`) -/

/-- A calendar date. -/
structure Date where
  year : Nat
  month : Nat
  day : Nat
  deriving DecidableEq

/-- The reading of the clock a run works with: the date `time.Now().Date()` in
the local zone and the offset of that zone, in seconds east of UTC, at the start
of that day.  The calls of `time.Now()` within one run are taken to fall on the
same day.

The zone also decides what `time.Date(y+1, m, d, 0, 0, 0, 0, loc)` reads when it
is formatted: `expiryShift` is the number of seconds by which the local reading of
that instant differs from midnight of the day asked for.  It is `0` unless that
midnight falls into a gap of the zone (clocks put forward at midnight), where
`time.Date` returns an instant that reads as the evening before in a zone west of
UTC (`-3600` in the Azores on the last Sunday of March). -/
structure Clock where
  year : Nat
  month : Nat
  day : Nat
  offset : Int
  expiryShift : Int
  deriving DecidableEq

/-- Gregorian leap year. -/
def isLeap (y : Nat) : Bool := decide (y % 4 = 0) && (decide (y % 100 ≠ 0) || decide (y % 400 = 0))

/-- The table `daysBefore` of package `time`: days of a non-leap year before the
start of each month. -/
def daysBefore : List Nat := [0, 31, 59, 90, 120, 151, 181, 212, 243, 273, 304, 334, 365]

/-- The function `daysIn` of package `time`. -/
def daysIn (m y : Nat) : Nat :=
  if m = 2 ∧ isLeap y = true then 29 else daysBefore.getD m 0 - daysBefore.getD (m - 1) 0

/-- Days from 1 January of year 0 to 1 January of year `y` (what
`daysSinceEpoch` counts, from another origin). -/
def daysSinceEpoch (y : Nat) : Int :=
  365 * (y : Int) + (((y + 3) / 4 : Nat) : Int) - (((y + 99) / 100 : Nat) : Int)
    + (((y + 399) / 400 : Nat) : Int)

/-- Day number of midnight of `time.Date(y, m, d, 0, 0, 0, 0, _)`, as `time.Date`
computes it (a day beyond the end of the month runs on into the next). -/
def absDays (y m d : Nat) : Int :=
  daysSinceEpoch y + (daysBefore.getD (m - 1) 0 : Nat)
    + (if isLeap y = true ∧ 3 ≤ m then 1 else 0) + (d : Int) - 1

/-- The calendar date that `time.Date(y, m, d, ...)` denotes, for a month in
`1..12` and a day that overruns its month by less than the next month. -/
def normDate (y m d : Nat) : Date :=
  if d ≤ daysIn m y then ⟨y, m, d⟩
  else if m = 12 then ⟨y + 1, 1, d - daysIn m y⟩
  else ⟨y, m + 1, d - daysIn m y⟩

/-- The day before a date. -/
def prevDay (d : Date) : Date :=
  if 1 < d.day then ⟨d.year, d.month, d.day - 1⟩
  else if 1 < d.month then ⟨d.year, d.month - 1, daysIn (d.month - 1) d.year⟩
  else ⟨d.year - 1, 12, 31⟩

/-- The day after a date. -/
def nextDay (d : Date) : Date :=
  if d.day < daysIn d.month d.year then ⟨d.year, d.month, d.day + 1⟩
  else if d.month < 12 then ⟨d.year, d.month + 1, 1⟩
  else ⟨d.year + 1, 1, 1⟩

/-- The date a number of days after (or, for a negative number, before) a date. -/
def addDays (d : Date) : Int → Date
  | .ofNat k => Nat.iterate nextDay k d
  | .negSucc k => Nat.iterate prevDay (k + 1) d

/-- The character of a decimal digit. -/
def digitChar : Nat → Char
  | 0 => '0'
  | 1 => '1'
  | 2 => '2'
  | 3 => '3'
  | 4 => '4'
  | 5 => '5'
  | 6 => '6'
  | 7 => '7'
  | 8 => '8'
  | _ => '9'

/-- Decimal digits of a number, least significant first. -/
def digitsRev : Nat → Nat → List Char
  | 0, _ => []
  | fuel + 1, n =>
    if n < 10 then [digitChar n] else digitChar (n % 10) :: digitsRev fuel (n / 10)

/-- The function `appendInt` of package `time`: decimal, zero-padded to `width`. -/
def appendInt (x width : Nat) : List Char :=
  List.replicate (width - (digitsRev (x + 1) x).length) '0' ++ (digitsRev (x + 1) x).reverse

/-- The method `Format("2006-01-02")`. -/
def formatDate (d : Date) : String :=
  String.mk (appendInt d.year 4 ++ '-' :: appendInt d.month 2 ++ '-' :: appendInt d.day 2)

/-- Two digits, as `getnum(value, true)` reads them. -/
def num2 (a b : Char) : Option Nat :=
  if isDigit a = true ∧ isDigit b = true then some (digitVal a * 10 + digitVal b) else none

/-- The four digits of `stdLongYear`. -/
def num4 (a b c d : Char) : Option Nat :=
  if isDigit a = true ∧ isDigit b = true ∧ isDigit c = true ∧ isDigit d = true then
    some (digitVal a * 1000 + digitVal b * 100 + digitVal c * 10 + digitVal d)
  else none

/-- The range checks of `time.Parse`: month in `1..12`, day in `1..daysIn`. -/
def mkDate (y m d : Nat) : Option Date :=
  if 1 ≤ m ∧ m ≤ 12 ∧ 1 ≤ d ∧ d ≤ daysIn m y then some ⟨y, m, d⟩ else none

/-- The call `time.Parse("2006-01-02", s)`; `none` when it returns an error. -/
def parseYMD (s : List Char) : Option Date :=
  match s with
  | [y1, y2, y3, y4, s1, m1, m2, s2, d1, d2] =>
    if s1 = '-' ∧ s2 = '-' then
      match num4 y1 y2 y3 y4, num2 m1 m2, num2 d1 d2 with
      | some y, some m, some d => mkDate y m d
      | _, _, _ => none
    else none
  | _ => none

/-- The call `time.Parse("02/01/2006", s)`; `none` when it returns an error. -/
def parseDMY (s : List Char) : Option Date :=
  match s with
  | [d1, d2, s1, m1, m2, s2, y1, y2, y3, y4] =>
    if s1 = '/' ∧ s2 = '/' then
      match num4 y1 y2 y3 y4, num2 m1 m2, num2 d1 d2 with
      | some y, some m, some d => mkDate y m d
      | _, _, _ => none
    else none
  | _ => none

/-- The method `Format("02/01/2006")`: the `DD/MM/YYYY` text of a date. -/
def formatDMY (d : Date) : String :=
  String.mk (appendInt d.day 2 ++ '/' :: appendInt d.month 2 ++ '/' :: appendInt d.year 4)

/-- The two parsing attempts on `expires`: `YYYY-MM-DD`, then `DD/MM/YYYY`. -/
def parseExpires (s : String) : Option Date :=
  match parseYMD s.data with
  | some d => some d
  | none => parseDMY s.data

/-- Seconds from midnight UTC of the expiry date to the start of today in the
local zone. -/
def secondsPast (now : Clock) (date : Date) : Int :=
  (absDays now.year now.month now.day - absDays date.year date.month date.day) * 86400
    - now.offset

/-- The `Duration` (nanoseconds) returned by `Time.Sub`, which saturates at the
bounds of `int64`. -/
def deltaNanos (now : Clock) (date : Date) : Int :=
  let d := secondsPast now date * 1000000000
  if d < -(2 ^ 63 : Int) then -(2 ^ 63 : Int)
  else if (2 ^ 63 : Int) - 1 < d then (2 ^ 63 : Int) - 1
  else d

/-- Nanoseconds in `168` hours.  The differences compared are whole seconds, so
the tests `delta > 0` and `delta >= 168` on `Hours()` are the tests `0 < d` and
`graceNanos ≤ d` on the `Duration` `d`. -/
def graceNanos : Int := 168 * 3600 * 1000000000

/-! ## The environment -/

/-- What the function obtains from outside: the inventory, the file system and
the clock. -/
structure Env where
  /-- The function `datacenterFromID`: the inventory path of the datacenter, `none` on error. -/
  datacenterFromID : String → Option String
  /-- Whether `resourceVSphereDatastoreClusterGetPodFromPath` finds the cluster. -/
  datastoreClusterFound : String → Bool
  /-- For a path, `none` when `ioutil.ReadFile` fails, otherwise what the record
  lexer makes of the text of the file. -/
  readFile : String → Option (List ReadEvent)
  /-- The method `folder.RootPathParticleVM.SplitRelativeFolder`, `none` on error. -/
  splitRelativeFolder : String → Option String
  /-- The function `folder.NormalizePath`. -/
  normalizePath : String → String
  /-- The function `resourcepool.FromPathOrDefault` on the vApp and pool names: the reference
  of the pool, `none` on error. -/
  resourcePoolFromPathOrDefault : String → String → Option String
  /-- The function `network.FromPath`: the reference of the network, `none` on error. -/
  networkFromPath : String → Option String
  /-- The clock. -/
  now : Clock
  /-- What `int(f)` gives for a `float64` outside the range of `int`. -/
  floatOverflow : Int

/-- The attributes of the data source that the function reads. -/
structure Config where
  datacenterId : String
  datastoreCluster : String
  csvfile : String
  query : List (String × String)
  defaultDisks : List (String × String)

/-! ## Processing one row -/

/-- The function `strings.HasSuffix`. -/
def hasSuffix (s v : String) : Bool := v.data.isSuffixOf s.data

/-- The constraint loop `for q, v := range query`: the type assertion
`item[q].(string)` panics on an absent key and on a number. -/
def queryLoop (item : Item) : List (String × String) → Bool → Outcome Bool
  | [], add => .ok add
  | (q, v) :: rest, add =>
    match get item q with
    | some (.str s) =>
      queryLoop item rest (if s ≠ v ∧ hasSuffix s v = false then false else add)
    | _ => .panic

/-- The function `strings.Split` with a separator of one character. -/
def splitOn (sep : Char) : List Char → List (List Char)
  | [] => [[]]
  | c :: cs =>
    if c = sep then [] :: splitOn sep cs
    else
      match splitOn sep cs with
      | [] => [[c]]
      | p :: ps => (c :: p) :: ps

/-- The block `if item["vapp"] != ""`: folder and resource pool. -/
def vappStep (env : Env) (inventoryPath : String) (item : Item) : Outcome Item :=
  match get item "vapp" with
  | some (.str s) =>
    if s = "" then .ok item
    else
      let vappPool := splitOn ':' s.data
      let vapp := String.mk (vappPool.headD [])
      let pool := if vappPool.length = 2 then String.mk (vappPool.getD 1 []) else ""
      let item1 := set item "folder" (.str "/")
      let vmPath := inventoryPath ++ "/vm/" ++ s
      let item2 :=
        match env.splitRelativeFolder vmPath with
        | none => item1
        | some f => set item1 "folder" (.str (env.normalizePath f))
      match env.resourcePoolFromPathOrDefault vapp pool with
      | none => .panic
      | some ref => .ok (set item2 "vapp" (.str ref))
  | _ => .panic

/-- The key `fmt.Sprintf("disk%d", i)`. -/
def diskKey (i : Nat) : String := "disk" ++ String.mk (digitsRev (i + 1) i).reverse

/-- One pass of the disk loop. -/
def diskStep (env : Env) (defaultDiskSizes : List (String × String)) (item : Item) (i : Nat) :
    Outcome Item :=
  let disk := diskKey i
  if isEmptyOrNil (get item disk) = true then
    match lookup defaultDiskSizes disk with
    | none => .ok (set item disk (.int 0))
    | some dflt => .ok (set item disk (.int (atoi dflt).1))
  else
    match lookup defaultDiskSizes disk with
    | none => .ok item
    | some dflt =>
      let defaultSize := if (atoi dflt).2 = true then 0 else (atoi dflt).1
      match get item disk with
      | some (.float f) =>
        if floatToInt env.floatOverflow f < defaultSize then
          .ok (set item disk (.int defaultSize))
        else .ok item
      | _ => .panic

/-- The loop `for i := 0; i < 4; i++`. -/
def diskLoop (env : Env) (defaultDiskSizes : List (String × String)) (item : Item) :
    Outcome Item :=
  (((diskStep env defaultDiskSizes item 0).bind
    (fun a => diskStep env defaultDiskSizes a 1)).bind
    (fun a => diskStep env defaultDiskSizes a 2)).bind
    (fun a => diskStep env defaultDiskSizes a 3)

/-- The block `if item["network"] != ""`. -/
def networkStep (env : Env) (item : Item) : Outcome Item :=
  match get item "network" with
  | some (.str s) =>
    if s = "" then .ok item
    else
      match env.networkFromPath s with
      | none => .panic
      | some ref => .ok (set item "network" (.str ref))
  | _ => .panic

/-- The text written into an empty `expires`:
`time.Date(y+1, m, d, 0, 0, 0, 0, loc).Format("2006-01-02")`, the date on which
the instant returned by `time.Date` falls in the local zone: the day asked for,
moved by the whole days that `expiryShift` spans. -/
def defaultExpiry (now : Clock) : String :=
  formatDate (addDays (normDate (now.year + 1) now.month now.day) (now.expiryShift / 86400))

/-- The block `if item["expires"] == "" || item["expires"] == nil`. -/
def fillExpires (now : Clock) (item : Item) : Item :=
  if isEmptyOrNil (get item "expires") = true then set item "expires" (.str (defaultExpiry now))
  else item

/-- Expiry, power state and the grace window, from `item["power"] = "true"` to
the last assignment of `add`. -/
def expiryStep (now : Clock) (item : Item) (add : Bool) : Outcome (Item × Bool) :=
  let item1 := set (fillExpires now item) "power" (.str "true")
  match get item1 "expires" with
  | some (.str s) =>
    match parseExpires s with
    | none => .error .invalidDateFormat
    | some date =>
      let delta := deltaNanos now date
      let item2 := if 0 < delta then set item1 "power" (.str "false") else item1
      .ok (item2, if graceNanos ≤ delta then false else add)
  | _ => .panic

/-- The enrichment before the expiry block: constraints, vApp, disks, network. -/
def enrich (env : Env) (inventoryPath : String) (query defaultDiskSizes : List (String × String))
    (item : Item) : Outcome (Item × Bool) :=
  (queryLoop item query true).bind fun add =>
  (vappStep env inventoryPath item).bind fun item1 =>
  (diskLoop env defaultDiskSizes item1).bind fun item2 =>
  (networkStep env item2).bind fun item3 =>
  .ok (item3, add)

/-- The body of `for _, item := range result`: the enriched row and whether it
is appended to `filtered`. -/
def processItem (env : Env) (inventoryPath : String)
    (query defaultDiskSizes : List (String × String)) (item : Item) : Outcome (Item × Bool) :=
  (enrich env inventoryPath query defaultDiskSizes item).bind fun r =>
  expiryStep env.now r.1 r.2

/-- The loop over `result`, accumulating `filtered`. -/
def filterLoop (env : Env) (inventoryPath : String)
    (query defaultDiskSizes : List (String × String)) :
    List Item → List Item → Outcome (List Item)
  | [], filtered => .ok filtered
  | item :: rest, filtered =>
    match processItem env inventoryPath query defaultDiskSizes item with
    | .ok r =>
      filterLoop env inventoryPath query defaultDiskSizes rest
        (if r.2 = true then filtered ++ [r.1] else filtered)
    | .error e => .error e
    | .panic => .panic

/-- The function `dataSourceVSphereCSVRead`: `.ok filtered` stands for
`d.Set("result", &filtered)` followed by `return nil`.  An empty `datacenter_id`
leaves `datacenter` nil, which `datacenter.InventoryPath` dereferences.  A failed
`ioutil.ReadFile` leaves `data` nil and its error unread, so the reader sees an
empty text.  `json.MarshalIndent` and `json.Unmarshal` cannot fail on rows of
numbers and strings, and `d.Get("query")` is never a nil map, so the guard
`query != nil` always holds. -/
def dataSourceVSphereCSVRead (env : Env) (cfg : Config) : Outcome (List Item) :=
  if cfg.datacenterId = "" then .panic
  else
    match env.datacenterFromID cfg.datacenterId with
    | none => .error .cannotLocateDatacenter
    | some inventoryPath =>
      if env.datastoreClusterFound cfg.datastoreCluster = false then
        .error .loadingDatastoreCluster
      else
        let events := (env.readFile cfg.csvfile).getD []
        (readRows 0 events []).bind fun rows =>
        filterLoop env inventoryPath cfg.query cfg.defaultDisks (rows.map jsonRoundTrip) []

/-! ## Notions of the specification -/

/-- A row satisfies the query: for every constraint its field for the key is a
string that equals the expected value or ends with it. -/
def satisfiesQuery (item : Item) (query : List (String × String)) : Prop :=
  ∀ q v, (q, v) ∈ query → ∃ s, get item q = some (.str s) ∧ (s = v ∨ v.data <:+ s.data)

/-- The records of the rows that are processed to the end with `add` still
set, in the order of the rows. -/
def keptRows (env : Env) (inventoryPath : String) (query defaultDiskSizes : List (String × String))
    (items : List Item) : List Item :=
  items.filterMap fun item =>
    match processItem env inventoryPath query defaultDiskSizes item with
    | .ok (out, true) => some out
    | _ => none

/-- The date a year after the current one: the same month and day of the
following year, and 1 March of it when the current date is 29 February. -/
def anniversary (now : Clock) : Date :=
  if now.month = 2 ∧ now.day = 29 then ⟨now.year + 1, 3, 1⟩
  else ⟨now.year + 1, now.month, now.day⟩

/-- A calendar date of a year with at most four digits. -/
def Date.valid (d : Date) : Prop :=
  d.year ≤ 9999 ∧ 1 ≤ d.month ∧ d.month ≤ 12 ∧ 1 ≤ d.day ∧ d.day ≤ daysIn d.month d.year

instance (d : Date) : Decidable d.valid := by
  unfold Date.valid
  infer_instance

/-- A reading of the clock: a calendar date whose following year has at most
four digits, in a zone less than a day away from UTC, in which the default expiry
reads at most a day before and less than a day after the midnight asked for. -/
def Clock.valid (now : Clock) : Prop :=
  1 ≤ now.month ∧ now.month ≤ 12 ∧ 1 ≤ now.day ∧ now.day ≤ daysIn now.month now.year ∧
    now.year + 1 ≤ 9999 ∧ -86400 < now.offset ∧ now.offset < 86400 ∧
    -86400 ≤ now.expiryShift ∧ now.expiryShift < 86400

instance (now : Clock) : Decidable now.valid := by
  unfold Clock.valid
  infer_instance

/-! ## Reading results and sample inputs -/

/-- The values of field `k` in the records of the result, `none` when the run
sets no result. -/
def resultField (o : Outcome (List Item)) (k : String) : Option (List (Option Value)) :=
  match o with
  | .ok items => some (items.map fun item => get item k)
  | _ => none

/-- Whether a key names a disk field. -/
def isDiskField (k : String) : Bool := decide (k.data.take 4 = ['d', 'i', 's', 'k'])

/-- An environment with one readable file, `machines.csv`, a datacenter at
`/dc1`, an inventory in which no vApp and no network resolves, and the given
clock. -/
def sampleEnv (now : Clock) (file : List ReadEvent) : Env where
  datacenterFromID := fun _ => some "/dc1"
  datastoreClusterFound := fun _ => true
  readFile := fun p => if p = "machines.csv" then some file else none
  splitRelativeFolder := fun _ => none
  normalizePath := fun s => s
  resourcePoolFromPathOrDefault := fun _ _ => none
  networkFromPath := fun _ => none
  now := now
  floatOverflow := -(2 ^ 63 : Int)

/-- Attributes naming the file `csvfile`, with the given query and default disks. -/
def sampleConfig (csvfile : String) (query defaults : List (String × String)) : Config :=
  ⟨"datacenter-2", "pod1", csvfile, query, defaults⟩

/-- The scenario record of the specification, with the cells of `cpu`, `disk0`,
`disk1` and `expires` left open. -/
def sampleCells (cpu disk0 disk1 expires : String) : List String :=
  ["h1", "10.0.0.1", "10.0.0.254", "24", cpu, "4096", "", "", "tmpl", disk0, disk1, "", "",
    expires]

/-- The row of the scenario record, with the values of `subnet`, `cpu`, `memory`,
the four disks and `expires` left open, followed by the fields in `extra`. -/
def sampleItem (subnet cpu memory disk0 disk1 disk2 disk3 expires : Value) (extra : Item) :
    Item :=
  [("hostname", .str "h1"), ("address", .str "10.0.0.1"), ("gateway", .str "10.0.0.254"),
    ("subnet", subnet), ("cpu", cpu), ("memory", memory), ("vapp", .str ""),
    ("network", .str ""), ("template", .str "tmpl"), ("disk0", disk0), ("disk1", disk1),
    ("disk2", disk2), ("disk3", disk3), ("expires", expires)] ++ extra

/-- The clock of the sample runs: 10 March 2024, in UTC. -/
def sampleClock : Clock := ⟨2024, 3, 10, 0, 0⟩

/-- A file of three records, expiring on 1 March, 8 March and 1 April 2024. -/
def sampleFile : List ReadEvent :=
  [.record (sampleCells "2" "" "" "2024-03-01"), .record (sampleCells "2" "" "" "2024-03-08"),
    .record (sampleCells "2" "" "" "2024-04-01")]

/-- The result of the run on `sampleFile` on 10 March 2024. -/
def sampleResult : List Item :=
  [sampleItem (.float 24) (.float 2) (.float 4096) (.int 0) (.int 0) (.int 0) (.int 0)
      (.str "2024-03-08") [("power", .str "false")],
    sampleItem (.float 24) (.float 2) (.float 4096) (.int 0) (.int 0) (.int 0) (.int 0)
      (.str "2024-04-01") [("power", .str "true")]]


/-! ## Maps -/

theorem get_set (item : Item) (k k' : String) (v : Value) :
    get (set item k v) k' = if k = k' then some v else get item k' := by
  induction item with
  | nil => simp [set, get]
  | cons kv rest ih =>
    obtain ⟨k0, v0⟩ := kv
    by_cases h : k0 = k
    · subst h
      by_cases h' : k0 = k' <;> simp [set, get, h']
    · by_cases h' : k0 = k'
      · subst h'
        have : ¬ k = k0 := fun e => h e.symm
        simp [set, get, h, this]
      · simp [set, get, h, h', ih]

theorem get_set_self (item : Item) (k : String) (v : Value) : get (set item k v) k = some v := by
  simp [get_set]

theorem get_set_other (item : Item) (k k' : String) (v : Value) (h : k ≠ k') :
    get (set item k v) k' = get item k' := by
  simp [get_set, h]

theorem keys_set_mem (item : Item) (k : String) (v : Value) (h : k ∈ keys item) :
    keys (set item k v) = keys item := by
  induction item with
  | nil => simp [keys] at h
  | cons kv rest ih =>
    obtain ⟨k0, v0⟩ := kv
    by_cases h0 : k0 = k
    · subst h0
      simp [set, keys]
    · have hmem : k ∈ keys rest := by
        simp only [keys, List.map_cons, List.mem_cons] at h
        rcases h with h | h
        · exact absurd h.symm h0
        · exact h
      have := ih hmem
      simp only [keys] at this
      simp [set, keys, h0, this]

theorem keys_set_not_mem (item : Item) (k : String) (v : Value) (h : k ∉ keys item) :
    keys (set item k v) = keys item ++ [k] := by
  induction item with
  | nil => simp [set, keys]
  | cons kv rest ih =>
    obtain ⟨k0, v0⟩ := kv
    simp only [keys, List.map_cons, List.mem_cons, not_or] at h
    have h0 : ¬ k0 = k := fun e => h.1 e.symm
    have := ih h.2
    simp only [keys] at this
    simp [set, keys, h0, this]

theorem get_jsonRoundTrip (row : Item) (k : String) :
    get (jsonRoundTrip row) k = (get row k).map jsonValue := by
  induction row with
  | nil => simp [jsonRoundTrip, get]
  | cons kv rest ih =>
    obtain ⟨k0, v0⟩ := kv
    simp only [jsonRoundTrip, List.map_cons] at ih ⊢
    by_cases h : k0 = k
    · simp [get, h]
    · simp [get, h, ih]

theorem keys_jsonRoundTrip (row : Item) : keys (jsonRoundTrip row) = keys row := by
  simp [keys, jsonRoundTrip, List.map_map, Function.comp_def]

/-! ## Sequencing -/

theorem bind_eq_ok {α β : Type} (x : Outcome α) (f : α → Outcome β) (b : β) :
    x.bind f = .ok b ↔ ∃ a, x = .ok a ∧ f a = .ok b := by
  cases x <;> simp [Outcome.bind]

/-! ## What each block leaves alone -/

theorem vappStep_get (env : Env) (inv : String) (item out : Item)
    (h : vappStep env inv item = .ok out) (k : String) (h1 : k ≠ "vapp") (h2 : k ≠ "folder") :
    get out k = get item k := by
  unfold vappStep at h
  simp only at h
  repeat' split at h
  all_goals cases h
  all_goals first
    | rfl
    | simp only [get_set_other _ _ _ _ (Ne.symm h1), get_set_other _ _ _ _ (Ne.symm h2)]

theorem diskStep_get (env : Env) (dd : List (String × String)) (item out : Item) (i : Nat)
    (h : diskStep env dd item i = .ok out) (k : String) (hk : k ≠ diskKey i) :
    get out k = get item k := by
  unfold diskStep at h
  simp only at h
  repeat' split at h
  all_goals cases h
  all_goals first
    | rfl
    | rw [get_set_other _ _ _ _ (Ne.symm hk)]

theorem networkStep_get (env : Env) (item out : Item)
    (h : networkStep env item = .ok out) (k : String) (hk : k ≠ "network") :
    get out k = get item k := by
  unfold networkStep at h
  split at h
  · split at h
    · cases h; rfl
    · split at h
      · cases h
      · cases h
        rw [get_set_other _ _ _ _ (Ne.symm hk)]
  · cases h

theorem fillExpires_get (now : Clock) (item : Item) (k : String) (hk : k ≠ "expires") :
    get (fillExpires now item) k = get item k := by
  unfold fillExpires
  split
  · rw [get_set_other _ _ _ _ (Ne.symm hk)]
  · rfl

theorem expiryStep_get (now : Clock) (item out : Item) (add add' : Bool)
    (h : expiryStep now item add = .ok (out, add')) (k : String)
    (h1 : k ≠ "expires") (h2 : k ≠ "power") : get out k = get item k := by
  unfold expiryStep at h
  simp only at h
  split at h
  · split at h
    · cases h
    · simp only [Outcome.ok.injEq, Prod.mk.injEq] at h
      rw [← h.1]
      split
      · rw [get_set_other _ _ _ _ (Ne.symm h2), get_set_other _ _ _ _ (Ne.symm h2),
          fillExpires_get _ _ _ h1]
      · rw [get_set_other _ _ _ _ (Ne.symm h2), fillExpires_get _ _ _ h1]
  · cases h

theorem diskKey_zero : diskKey 0 = "disk0" := by decide
theorem diskKey_one : diskKey 1 = "disk1" := by decide
theorem diskKey_two : diskKey 2 = "disk2" := by decide
theorem diskKey_three : diskKey 3 = "disk3" := by decide

theorem diskKey_ne (i j : Nat) (hi : i < 4) (hj : j < 4) (h : i ≠ j) : diskKey i ≠ diskKey j := by
  interval_cases i <;> interval_cases j <;> first | exact absurd rfl h | decide

theorem diskKey_ne_names (i : Nat) (hi : i < 4) :
    diskKey i ≠ "vapp" ∧ diskKey i ≠ "folder" ∧ diskKey i ≠ "network" ∧
    diskKey i ≠ "expires" ∧ diskKey i ≠ "power" := by
  interval_cases i <;> decide

/-- The pass of the disk loop for slot `i` sees the value the row came in with,
and what it leaves is what the row goes out with. -/
theorem processItem_disk (env : Env) (inv : String) (query dd : List (String × String))
    (item out : Item) (add : Bool) (i : Nat) (hi : i < 4)
    (h : processItem env inv query dd item = .ok (out, add)) :
    ∃ mid mid', diskStep env dd mid i = .ok mid' ∧
      get mid (diskKey i) = get item (diskKey i) ∧ get out (diskKey i) = get mid' (diskKey i) := by
  obtain ⟨hv, hf, hn, he, hp⟩ := diskKey_ne_names i hi
  unfold processItem at h
  rw [bind_eq_ok] at h
  obtain ⟨r, hr, hexp⟩ := h
  unfold enrich at hr
  rw [bind_eq_ok] at hr
  obtain ⟨add0, _, hr⟩ := hr
  rw [bind_eq_ok] at hr
  obtain ⟨i1, hvapp, hr⟩ := hr
  rw [bind_eq_ok] at hr
  obtain ⟨i2, hdisk, hr⟩ := hr
  rw [bind_eq_ok] at hr
  obtain ⟨i3, hnet, hr⟩ := hr
  cases hr
  have e1 := vappStep_get _ _ _ _ hvapp (diskKey i) hv hf
  have e3 := networkStep_get _ _ _ hnet (diskKey i) hn
  have e4 := expiryStep_get _ _ _ _ _ hexp (diskKey i) he hp
  simp only at e4
  unfold diskLoop at hdisk
  rw [bind_eq_ok] at hdisk
  obtain ⟨a2, hdisk, s3⟩ := hdisk
  rw [bind_eq_ok] at hdisk
  obtain ⟨a1, hdisk, s2⟩ := hdisk
  rw [bind_eq_ok] at hdisk
  obtain ⟨a0, s0, s1⟩ := hdisk
  have n01 := diskKey_ne
  interval_cases i
  · refine ⟨i1, a0, s0, e1, ?_⟩
    rw [e4, e3, diskStep_get _ _ _ _ _ s3 _ (n01 0 3 (by omega) (by omega) (by omega)),
      diskStep_get _ _ _ _ _ s2 _ (n01 0 2 (by omega) (by omega) (by omega)),
      diskStep_get _ _ _ _ _ s1 _ (n01 0 1 (by omega) (by omega) (by omega))]
  · refine ⟨a0, a1, s1, ?_, ?_⟩
    · rw [diskStep_get _ _ _ _ _ s0 _ (n01 1 0 (by omega) (by omega) (by omega)), e1]
    · rw [e4, e3, diskStep_get _ _ _ _ _ s3 _ (n01 1 3 (by omega) (by omega) (by omega)),
        diskStep_get _ _ _ _ _ s2 _ (n01 1 2 (by omega) (by omega) (by omega))]
  · refine ⟨a1, a2, s2, ?_, ?_⟩
    · rw [diskStep_get _ _ _ _ _ s1 _ (n01 2 1 (by omega) (by omega) (by omega)),
        diskStep_get _ _ _ _ _ s0 _ (n01 2 0 (by omega) (by omega) (by omega)), e1]
    · rw [e4, e3, diskStep_get _ _ _ _ _ s3 _ (n01 2 3 (by omega) (by omega) (by omega))]
  · refine ⟨a2, i2, s3, ?_, ?_⟩
    · rw [diskStep_get _ _ _ _ _ s2 _ (n01 3 2 (by omega) (by omega) (by omega)),
        diskStep_get _ _ _ _ _ s1 _ (n01 3 1 (by omega) (by omega) (by omega)),
        diskStep_get _ _ _ _ _ s0 _ (n01 3 0 (by omega) (by omega) (by omega)), e1]
    · rw [e4, e3]

/-! ## Normalised rows -/

theorem normalizeRow_eq (cells : List String) (row : Item) (h : normalizeRow cells = some row) :
    ∃ c0 c1 c2 c3 c4 c5 c6 c7 c8 c9 c10 c11 c12 c13 tl,
      cells = c0 :: c1 :: c2 :: c3 :: c4 :: c5 :: c6 :: c7 :: c8 :: c9 :: c10 :: c11 :: c12 ::
        c13 :: tl ∧
      row = [("hostname", coerce c0), ("address", coerce c1), ("gateway", coerce c2),
        ("subnet", coerce c3), ("cpu", coerce c4), ("memory", coerce c5), ("vapp", coerce c6),
        ("network", coerce c7), ("template", coerce c8), ("disk0", coerce c9),
        ("disk1", coerce c10), ("disk2", coerce c11), ("disk3", coerce c12),
        ("expires", coerce c13)] := by
  rcases cells with _ | ⟨c0, _ | ⟨c1, _ | ⟨c2, _ | ⟨c3, _ | ⟨c4, _ | ⟨c5, _ | ⟨c6, _ | ⟨c7,
    _ | ⟨c8, _ | ⟨c9, _ | ⟨c10, _ | ⟨c11, _ | ⟨c12, _ | ⟨c13, tl⟩⟩⟩⟩⟩⟩⟩⟩⟩⟩⟩⟩⟩⟩
  all_goals try (simp [normalizeRow, normalizeLoop, columns] at h)
  refine ⟨c0, c1, c2, c3, c4, c5, c6, c7, c8, c9, c10, c11, c12, c13, tl, rfl, ?_⟩
  simp [set] at h
  exact h.symm

theorem normalizeRow_disk (cells : List String) (row : Item) (h : normalizeRow cells = some row)
    (i : Nat) (hi : i < 4) (c : String) (hc : cells.get? (9 + i) = some c) :
    get row (diskKey i) = some (coerce c) := by
  obtain ⟨c0, c1, c2, c3, c4, c5, c6, c7, c8, c9, c10, c11, c12, c13, tl, rfl, rfl⟩ :=
    normalizeRow_eq cells row h
  interval_cases i
  · simp at hc; subst hc; simp [get, diskKey_zero]
  · simp at hc; subst hc; simp [get, diskKey_one]
  · simp at hc; subst hc; simp [get, diskKey_two]
  · simp at hc; subst hc; simp [get, diskKey_three]

theorem normalizeRow_expires (cells : List String) (row : Item)
    (h : normalizeRow cells = some row) (c : String) (hc : cells.get? 13 = some c) :
    get row "expires" = some (coerce c) := by
  obtain ⟨c0, c1, c2, c3, c4, c5, c6, c7, c8, c9, c10, c11, c12, c13, tl, rfl, rfl⟩ :=
    normalizeRow_eq cells row h
  simp at hc; subst hc; simp [get]

theorem normalizeRow_keys (cells : List String) (row : Item)
    (h : normalizeRow cells = some row) : keys row = columns := by
  obtain ⟨c0, c1, c2, c3, c4, c5, c6, c7, c8, c9, c10, c11, c12, c13, tl, rfl, rfl⟩ :=
    normalizeRow_eq cells row h
  simp [keys, columns]

/-! ## Numbers -/

theorem roundNat_small (m : Nat) (h : m ≤ 2 ^ 53) : roundNat m = m := by
  rcases Nat.lt_or_eq_of_le h with h | h
  · have he : excessBits 64 m = 0 := by
      show excessBits (63 + 1) m = 0
      rw [excessBits, if_pos h]
    simp [roundNat, he, Nat.mod_one]
  · subst h
    decide

theorem roundFloat64_small (n : Int) (h1 : -(2 ^ 53 : Int) ≤ n) (h2 : n ≤ (2 ^ 53 : Int)) :
    roundFloat64 n = n := by
  have hm : n.natAbs ≤ 2 ^ 53 := by omega
  unfold roundFloat64
  rw [roundNat_small _ hm]
  split <;> omega

theorem roundFloat64_nonneg (n : Int) (h : 0 ≤ n) : 0 ≤ roundFloat64 n := by
  unfold roundFloat64
  split
  · omega
  · exact Int.ofNat_nonneg _

theorem floatToInt_small (ovf n : Int) (h1 : -(2 ^ 53 : Int) ≤ n) (h2 : n ≤ (2 ^ 53 : Int)) :
    floatToInt ovf n = n := by
  unfold floatToInt
  rw [if_pos]
  constructor <;> omega

theorem coerce_empty : coerce "" = .str "" := by decide

theorem coerce_int (c : String) (h : (atoi c).2 = false) : coerce c = .int (atoi c).1 := by
  simp [coerce, h]

/-! ## The disk loop -/

/-- What one pass of the disk loop does to its own slot. -/
theorem diskStep_self (env : Env) (dd : List (String × String)) (item out : Item) (i : Nat)
    (h : diskStep env dd item i = .ok out) :
    (isEmptyOrNil (get item (diskKey i)) = true ∧
      ((lookup dd (diskKey i) = none ∧ get out (diskKey i) = some (.int 0)) ∨
        ∃ dflt, lookup dd (diskKey i) = some dflt ∧
          get out (diskKey i) = some (.int (atoi dflt).1))) ∨
    (isEmptyOrNil (get item (diskKey i)) = false ∧
      ((lookup dd (diskKey i) = none ∧ get out (diskKey i) = get item (diskKey i)) ∨
        ∃ dflt f, lookup dd (diskKey i) = some dflt ∧ get item (diskKey i) = some (.float f) ∧
          get out (diskKey i) =
            if floatToInt env.floatOverflow f < (if (atoi dflt).2 = true then 0 else (atoi dflt).1)
            then some (.int (if (atoi dflt).2 = true then 0 else (atoi dflt).1))
            else some (.float f))) := by
  unfold diskStep at h
  simp only at h
  split at h
  · rename_i he
    refine Or.inl ⟨he, ?_⟩
    split at h
    · rename_i hl
      cases h
      exact Or.inl ⟨hl, get_set_self _ _ _⟩
    · rename_i dflt hl
      cases h
      exact Or.inr ⟨dflt, hl, get_set_self _ _ _⟩
  · rename_i he
    refine Or.inr ⟨by simpa using he, ?_⟩
    split at h
    · rename_i hl
      cases h
      exact Or.inl ⟨hl, rfl⟩
    · rename_i dflt hl
      split at h
      · rename_i f hf
        refine Or.inr ⟨dflt, f, hl, hf, ?_⟩
        by_cases hlt : floatToInt env.floatOverflow f <
            (if (atoi dflt).2 = true then 0 else (atoi dflt).1)
        · rw [if_pos hlt] at h
          cases h
          rw [if_pos hlt, get_set_self]
        · rw [if_neg hlt] at h
          cases h
          rw [if_neg hlt, hf]
      · cases h

/-- The value the disk loop finds in slot `i` of a normalised row after the JSON
round trip. -/
theorem disk_before (cells : List String) (row : Item) (h : normalizeRow cells = some row)
    (i : Nat) (hi : i < 4) (c : String) (hc : cells.get? (9 + i) = some c) :
    get (jsonRoundTrip row) (diskKey i) = some (jsonValue (coerce c)) := by
  rw [get_jsonRoundTrip, normalizeRow_disk cells row h i hi c hc]
  rfl

/-! ## The keys of a processed row -/

theorem vappStep_keys (env : Env) (inv : String) (item out : Item)
    (hk : keys item = columns) (h : vappStep env inv item = .ok out) :
    keys out = columns ∨ keys out = columns ++ ["folder"] := by
  have hf : "folder" ∉ keys item := by rw [hk]; decide
  have k1 : ∀ v, keys (set item "folder" v) = columns ++ ["folder"] := fun v => by
    rw [keys_set_not_mem _ _ _ hf, hk]
  have k2 : ∀ v w, keys (set (set item "folder" v) "folder" w) = columns ++ ["folder"] :=
    fun v w => by
      rw [keys_set_mem _ _ _ (by rw [k1]; decide), k1]
  unfold vappStep at h
  simp only at h
  repeat' split at h
  all_goals cases h
  · exact Or.inl hk
  · right
    rw [keys_set_mem _ _ _ (by rw [k1]; decide), k1]
  · right
    rw [keys_set_mem _ _ _ (by rw [k2]; decide), k2]

theorem diskStep_keys (env : Env) (dd : List (String × String)) (item out : Item) (i : Nat)
    (hk : diskKey i ∈ keys item) (h : diskStep env dd item i = .ok out) :
    keys out = keys item := by
  unfold diskStep at h
  simp only at h
  repeat' split at h
  all_goals cases h
  all_goals first
    | rfl
    | exact keys_set_mem _ _ _ hk

theorem networkStep_keys (env : Env) (item out : Item)
    (hk : "network" ∈ keys item) (h : networkStep env item = .ok out) :
    keys out = keys item := by
  unfold networkStep at h
  repeat' split at h
  all_goals cases h
  all_goals first
    | rfl
    | exact keys_set_mem _ _ _ hk

theorem fillExpires_keys (now : Clock) (item : Item) (hk : "expires" ∈ keys item) :
    keys (fillExpires now item) = keys item := by
  unfold fillExpires
  split
  · exact keys_set_mem _ _ _ hk
  · rfl

theorem expiryStep_keys (now : Clock) (item out : Item) (add add' : Bool)
    (hk : "expires" ∈ keys item) (hp : "power" ∉ keys item)
    (h : expiryStep now item add = .ok (out, add')) : keys out = keys item ++ ["power"] := by
  have k1 : keys (set (fillExpires now item) "power" (.str "true")) = keys item ++ ["power"] := by
    rw [keys_set_not_mem _ _ _ (by rw [fillExpires_keys _ _ hk]; exact hp),
      fillExpires_keys _ _ hk]
  unfold expiryStep at h
  simp only at h
  split at h
  · split at h
    · cases h
    · simp only [Outcome.ok.injEq, Prod.mk.injEq] at h
      rw [← h.1]
      split
      · rw [keys_set_mem _ _ _ (by rw [k1]; simp), k1]
      · exact k1
  · cases h

theorem processItem_keys (env : Env) (inv : String) (query dd : List (String × String))
    (item out : Item) (add : Bool) (hk : keys item = columns)
    (h : processItem env inv query dd item = .ok (out, add)) :
    keys out = columns ++ ["power"] ∨ keys out = columns ++ ["folder", "power"] := by
  unfold processItem at h
  rw [bind_eq_ok] at h
  obtain ⟨r, hr, hexp⟩ := h
  unfold enrich at hr
  rw [bind_eq_ok] at hr
  obtain ⟨add0, _, hr⟩ := hr
  rw [bind_eq_ok] at hr
  obtain ⟨i1, hvapp, hr⟩ := hr
  rw [bind_eq_ok] at hr
  obtain ⟨i2, hdisk, hr⟩ := hr
  rw [bind_eq_ok] at hr
  obtain ⟨i3, hnet, hr⟩ := hr
  cases hr
  unfold diskLoop at hdisk
  rw [bind_eq_ok] at hdisk
  obtain ⟨a2, hdisk, s3⟩ := hdisk
  rw [bind_eq_ok] at hdisk
  obtain ⟨a1, hdisk, s2⟩ := hdisk
  rw [bind_eq_ok] at hdisk
  obtain ⟨a0, s0, s1⟩ := hdisk
  have key : ∀ ks : List String, keys i1 = ks → "disk0" ∈ ks → "disk1" ∈ ks → "disk2" ∈ ks →
      "disk3" ∈ ks → "network" ∈ ks → "expires" ∈ ks → "power" ∉ ks →
      keys out = ks ++ ["power"] := by
    intro ks e1 m0 m1 m2 m3 mn me mp
    have e2 := diskStep_keys _ _ _ _ _ (by rw [e1, diskKey_zero]; exact m0) s0
    rw [e1] at e2
    have e3 := diskStep_keys _ _ _ _ _ (by rw [e2, diskKey_one]; exact m1) s1
    rw [e2] at e3
    have e4 := diskStep_keys _ _ _ _ _ (by rw [e3, diskKey_two]; exact m2) s2
    rw [e3] at e4
    have e5 := diskStep_keys _ _ _ _ _ (by rw [e4, diskKey_three]; exact m3) s3
    rw [e4] at e5
    have e6 := networkStep_keys _ _ _ (by rw [e5]; exact mn) hnet
    rw [e5] at e6
    have e7 := expiryStep_keys _ _ _ _ _ (by rw [e6]; exact me) (by rw [e6]; exact mp) hexp
    rw [e7, e6]
  rcases vappStep_keys _ _ _ _ hk hvapp with e | e
  · exact Or.inl (key _ e (by decide) (by decide) (by decide) (by decide) (by decide)
      (by decide) (by decide))
  · refine Or.inr ?_
    rw [key _ e (by decide) (by decide) (by decide) (by decide) (by decide)
      (by decide) (by decide)]
    rfl

/-! ## Expiry and power -/

theorem deltaNanos_pos (now : Clock) (date : Date) :
    0 < deltaNanos now date ↔ 0 < secondsPast now date := by
  unfold deltaNanos
  simp only
  split
  · omega
  · split <;> omega

theorem deltaNanos_grace (now : Clock) (date : Date) :
    graceNanos ≤ deltaNanos now date ↔ 168 * 3600 ≤ secondsPast now date := by
  unfold deltaNanos graceNanos
  simp only
  split
  · omega
  · split <;> omega

/-- What the expiry block does: the text it parses is the one it leaves in
`expires`, and `power` and `add` follow the sign and size of the difference. -/
theorem expiryStep_ok (now : Clock) (item out : Item) (add add' : Bool)
    (h : expiryStep now item add = .ok (out, add')) :
    ∃ s date, get (fillExpires now item) "expires" = some (.str s) ∧
      get out "expires" = some (.str s) ∧ parseExpires s = some date ∧
      (get out "power" = some (.str (if 0 < secondsPast now date then "false" else "true"))) ∧
      add' = (if 168 * 3600 ≤ secondsPast now date then false else add) := by
  unfold expiryStep at h
  simp only at h
  split at h
  · rename_i s hs
    split at h
    · cases h
    · rename_i date hd
      simp only [Outcome.ok.injEq, Prod.mk.injEq] at h
      obtain ⟨h1, h2⟩ := h
      have hne : ("power" : String) ≠ "expires" := by decide
      rw [get_set_other _ _ _ _ hne] at hs
      refine ⟨s, date, hs, ?_, hd, ?_, ?_⟩
      · rw [← h1]
        split
        · rw [get_set_other _ _ _ _ hne, get_set_other _ _ _ _ hne, hs]
        · rw [get_set_other _ _ _ _ hne, hs]
      · rw [← h1]
        by_cases hp : 0 < deltaNanos now date
        · rw [if_pos hp, if_pos ((deltaNanos_pos now date).1 hp), get_set_self]
        · rw [if_neg hp, if_neg (fun h => hp ((deltaNanos_pos now date).2 h)), get_set_self]
      · rw [← h2]
        by_cases hg : graceNanos ≤ deltaNanos now date
        · rw [if_pos hg, if_pos ((deltaNanos_grace now date).1 hg)]
        · rw [if_neg hg, if_neg (fun h => hg ((deltaNanos_grace now date).2 h))]
  · cases h

/-! ## The constraint loop and the accumulation of the result -/

theorem hasSuffix_iff (s v : String) : hasSuffix s v = true ↔ v.data <:+ s.data := by
  unfold hasSuffix
  exact List.isSuffixOf_iff_suffix

theorem queryLoop_ok (item : Item) (query : List (String × String)) (add0 add : Bool)
    (h : queryLoop item query add0 = .ok add) :
    (satisfiesQuery item query → add = add0) ∧
    (add = true → add0 = true ∧ satisfiesQuery item query) := by
  induction query generalizing add0 with
  | nil =>
    simp only [queryLoop, Outcome.ok.injEq] at h
    subst h
    refine ⟨fun _ => rfl, fun h => ⟨h, ?_⟩⟩
    intro q v hm
    cases hm
  | cons qv rest ih =>
    obtain ⟨q, v⟩ := qv
    unfold queryLoop at h
    split at h
    · rename_i s hs
      obtain ⟨ih1, ih2⟩ := ih _ h
      constructor
      · intro hsat
        have hrest : satisfiesQuery item rest := fun q' v' hm =>
          hsat q' v' (List.mem_cons_of_mem _ hm)
        obtain ⟨s', hs', hor⟩ := hsat q v (List.mem_cons_self _ _)
        rw [hs] at hs'
        cases hs'
        rw [ih1 hrest]
        rcases hor with e | e
        · simp [e]
        · simp [(hasSuffix_iff s v).2 e]
      · intro ht
        obtain ⟨h1, hrest⟩ := ih2 ht
        by_cases hc : s ≠ v ∧ hasSuffix s v = false
        · rw [if_pos hc] at h1
          cases h1
        · rw [if_neg hc] at h1
          refine ⟨h1, ?_⟩
          intro q' v' hm
          rcases List.mem_cons.1 hm with e | e
          · cases e
            refine ⟨s, hs, ?_⟩
            by_cases hsv : s = v
            · exact Or.inl hsv
            · right
              rw [← hasSuffix_iff]
              cases hb : hasSuffix s v
              · exact absurd ⟨hsv, hb⟩ hc
              · rfl
          · exact hrest q' v' e
    · cases h

theorem filterLoop_ok (env : Env) (inv : String) (query dd : List (String × String))
    (items acc result : List Item) (h : filterLoop env inv query dd items acc = .ok result) :
    result = acc ++ keptRows env inv query dd items ∧
    ∀ item ∈ items, ∃ out add, processItem env inv query dd item = .ok (out, add) := by
  induction items generalizing acc with
  | nil =>
    simp only [filterLoop, Outcome.ok.injEq] at h
    subst h
    simp [keptRows]
  | cons item rest ih =>
    unfold filterLoop at h
    split at h
    · rename_i r hr
      obtain ⟨out, add⟩ := r
      obtain ⟨ih1, ih2⟩ := ih _ h
      constructor
      · rw [ih1]
        cases add
        · simp [keptRows, List.filterMap_cons, hr]
        · simp [keptRows, List.filterMap_cons, hr]
      · intro it hm
        rcases List.mem_cons.1 hm with e | e
        · subst e
          exact ⟨out, add, hr⟩
        · exact ih2 it e
    · cases h
    · cases h

/-- What a row that is processed to the end owes to the expiry block and to the
constraint loop. -/
theorem processItem_ok (env : Env) (inv : String) (query dd : List (String × String))
    (item out : Item) (add : Bool) (h : processItem env inv query dd item = .ok (out, add)) :
    ∃ mid add0 s date, enrich env inv query dd item = .ok (mid, add0) ∧
      (satisfiesQuery item query → add0 = true) ∧
      (add0 = true → satisfiesQuery item query) ∧
      get (fillExpires env.now mid) "expires" = some (.str s) ∧
      get out "expires" = some (.str s) ∧ parseExpires s = some date ∧
      (get out "power" =
        some (.str (if 0 < secondsPast env.now date then "false" else "true"))) ∧
      add = (if 168 * 3600 ≤ secondsPast env.now date then false else add0) := by
  unfold processItem at h
  rw [bind_eq_ok] at h
  obtain ⟨r, hr, hexp⟩ := h
  obtain ⟨mid, add0⟩ := r
  obtain ⟨s, date, h1, h2, h3, h4, h5⟩ := expiryStep_ok _ _ _ _ _ hexp
  refine ⟨mid, add0, s, date, hr, ?_, ?_, h1, h2, h3, h4, h5⟩
  all_goals
    unfold enrich at hr
    rw [bind_eq_ok] at hr
    obtain ⟨a, hq, hr⟩ := hr
    rw [bind_eq_ok] at hr
    obtain ⟨i1, _, hr⟩ := hr
    rw [bind_eq_ok] at hr
    obtain ⟨i2, _, hr⟩ := hr
    rw [bind_eq_ok] at hr
    obtain ⟨i3, _, hr⟩ := hr
    simp only [Outcome.ok.injEq, Prod.mk.injEq] at hr
    obtain ⟨_, rfl⟩ := hr
  · exact (queryLoop_ok item query true a hq).1
  · exact fun e => ((queryLoop_ok item query true a hq).2 e).2

/-! ## Formatting a date and parsing it back -/

theorem digitChar_spec (k : Nat) (h : k < 10) :
    isDigit (digitChar k) = true ∧ digitVal (digitChar k) = k := by
  interval_cases k <;> decide

theorem digitsRev_small (fuel n : Nat) (h : n < 10) : digitsRev (fuel + 1) n = [digitChar n] := by
  simp [digitsRev, h]

theorem digitsRev_step (fuel n : Nat) (h : 10 ≤ n) :
    digitsRev (fuel + 1) n = digitChar (n % 10) :: digitsRev fuel (n / 10) := by
  have : ¬ n < 10 := by omega
  simp [digitsRev, this]

theorem appendInt_two (x : Nat) (h : x < 100) :
    appendInt x 2 = [digitChar (x / 10), digitChar (x % 10)] := by
  unfold appendInt
  by_cases h1 : x < 10
  · rw [digitsRev_small _ _ h1]
    have e1 : x / 10 = 0 := by omega
    have e2 : x % 10 = x := by omega
    rw [e1, e2]
    rfl
  · obtain ⟨f, hf⟩ : ∃ f, x = f + 1 := ⟨x - 1, by omega⟩
    rw [digitsRev_step _ _ (by omega), hf, digitsRev_small _ _ (by omega)]
    rfl

theorem appendInt_four (x : Nat) (h : x < 10000) :
    appendInt x 4 =
      [digitChar (x / 1000), digitChar (x / 100 % 10), digitChar (x / 10 % 10),
        digitChar (x % 10)] := by
  unfold appendInt
  by_cases h1 : x < 10
  · rw [digitsRev_small _ _ h1]
    have e1 : x / 1000 = 0 := by omega
    have e2 : x / 100 % 10 = 0 := by omega
    have e3 : x / 10 % 10 = 0 := by omega
    have e4 : x % 10 = x := by omega
    rw [e1, e2, e3, e4]
    rfl
  · obtain ⟨f, hf⟩ : ∃ f, x = f + 1 := ⟨x - 1, by omega⟩
    rw [digitsRev_step _ _ (by omega)]
    by_cases h2 : x < 100
    · rw [hf, digitsRev_small _ _ (by omega)]
      have e1 : (f + 1) / 1000 = 0 := by omega
      have e2 : (f + 1) / 100 % 10 = 0 := by omega
      have e3 : (f + 1) / 10 % 10 = (f + 1) / 10 := by omega
      rw [e1, e2, e3]
      rfl
    · obtain ⟨g, hg⟩ : ∃ g, x = g + 1 := ⟨x - 1, by omega⟩
      rw [hg, digitsRev_step _ _ (by omega)]
      by_cases h3 : x < 1000
      · obtain ⟨g', hg'⟩ : ∃ g', g = g' + 1 := ⟨g - 1, by omega⟩
        rw [hg', digitsRev_small _ _ (by omega)]
        have e1 : (g' + 1 + 1) / 1000 = 0 := by omega
        have e2 : (g' + 1 + 1) / 100 % 10 = (g' + 1 + 1) / 10 / 10 := by omega
        have e3 : (g' + 1 + 1) / 10 % 10 = (g' + 1 + 1) / 10 % 10 := rfl
        rw [e1, e2]
        rfl
      · obtain ⟨g', hg'⟩ : ∃ g', g = g' + 2 := ⟨g - 2, by omega⟩
        rw [hg', digitsRev_step _ _ (by omega), digitsRev_small _ _ (by omega)]
        have e1 : (g' + 2 + 1) / 1000 = (g' + 2 + 1) / 10 / 10 / 10 := by omega
        have e2 : (g' + 2 + 1) / 100 % 10 = (g' + 2 + 1) / 10 / 10 % 10 := by omega
        rw [e1, e2]
        rfl

theorem parseYMD_formatDate (d : Date) (hy : d.year ≤ 9999) (hm1 : 1 ≤ d.month)
    (hm2 : d.month ≤ 12) (hd1 : 1 ≤ d.day) (hd2 : d.day ≤ daysIn d.month d.year) :
    parseYMD (formatDate d).data = some d := by
  have hday : d.day ≤ 31 := by
    have : daysIn d.month d.year ≤ 31 := by
      unfold daysIn
      split
      · omega
      · have := hm1
        have := hm2
        generalize d.month = m at *
        interval_cases m <;> decide
    omega
  obtain ⟨y, m, dd⟩ := d
  simp only at hy hm1 hm2 hd1 hd2 hday
  unfold formatDate
  simp only
  rw [appendInt_four y (by omega), appendInt_two m (by omega), appendInt_two dd (by omega)]
  have a1 := digitChar_spec (y / 1000) (by omega)
  have a2 := digitChar_spec (y / 100 % 10) (by omega)
  have a3 := digitChar_spec (y / 10 % 10) (by omega)
  have a4 := digitChar_spec (y % 10) (by omega)
  have b1 := digitChar_spec (m / 10) (by omega)
  have b2 := digitChar_spec (m % 10) (by omega)
  have c1 := digitChar_spec (dd / 10) (by omega)
  have c2 := digitChar_spec (dd % 10) (by omega)
  have ey : y / 1000 * 1000 + y / 100 % 10 * 100 + y / 10 % 10 * 10 + y % 10 = y := by omega
  have em : m / 10 * 10 + m % 10 = m := by omega
  have ed : dd / 10 * 10 + dd % 10 = dd := by omega
  simp only [List.cons_append, List.nil_append, parseYMD, and_self, if_true, num4, num2,
    a1.1, a2.1, a3.1, a4.1, b1.1, b2.1, c1.1, c2.1, a1.2, a2.2, a3.2, a4.2, b1.2, b2.2,
    c1.2, c2.2, ey, em, ed, mkDate]
  rw [if_pos ⟨hm1, hm2, hd1, hd2⟩]

theorem parseExpires_formatDate (d : Date) (hy : d.year ≤ 9999) (hm1 : 1 ≤ d.month)
    (hm2 : d.month ≤ 12) (hd1 : 1 ≤ d.day) (hd2 : d.day ≤ daysIn d.month d.year) :
    parseExpires (formatDate d) = some d := by
  unfold parseExpires
  rw [parseYMD_formatDate d hy hm1 hm2 hd1 hd2]

/-! ## The default expiry -/

theorem isLeap_iff (y : Nat) : isLeap y = true ↔ y % 4 = 0 ∧ (y % 100 ≠ 0 ∨ y % 400 = 0) := by
  simp [isLeap]

theorem isLeap_succ (y : Nat) (h : isLeap y = true) : isLeap (y + 1) = false := by
  rw [isLeap_iff] at h
  cases hb : isLeap (y + 1)
  · rfl
  · rw [isLeap_iff] at hb
    omega

/-- The date `normDate` gives is the day `time.Date` computes. -/
theorem absDays_normDate (y m d : Nat) (h1 : 1 ≤ m) (h2 : m ≤ 12) :
    absDays (normDate y m d).year (normDate y m d).month (normDate y m d).day =
      absDays y m d := by
  have hd : daysSinceEpoch (y + 1) =
      daysSinceEpoch y + 365 + (if isLeap y = true then 1 else 0) := by
    unfold daysSinceEpoch
    split
    · rename_i hl
      rw [isLeap_iff] at hl
      omega
    · rename_i hl
      rw [isLeap_iff] at hl
      omega
  unfold normDate
  split
  · rfl
  · rename_i hgt
    cases hb : isLeap y <;> rw [hb] at hd <;> interval_cases m <;>
      simp [daysIn, daysBefore, hb] at hgt ⊢ <;>
      simp [absDays, daysBefore, hb, hd] <;> omega

theorem anniversary_spec (now : Clock) (hv : now.valid) :
    normDate (now.year + 1) now.month now.day = anniversary now ∧
    1 ≤ (anniversary now).month ∧ (anniversary now).month ≤ 12 ∧ 1 ≤ (anniversary now).day ∧
    (anniversary now).day ≤ daysIn (anniversary now).month (anniversary now).year ∧
    (anniversary now).year ≤ 9999 ∧
    absDays now.year now.month now.day + 365 ≤
      absDays (anniversary now).year (anniversary now).month (anniversary now).day := by
  obtain ⟨y, m, d, off, sh⟩ := now
  obtain ⟨h1, h2, h3, h4, h5, _, _⟩ := hv
  simp only at h1 h2 h3 h4 h5
  simp only [anniversary, normDate]
  have hd : daysSinceEpoch (y + 1) = daysSinceEpoch y + 365 + (if isLeap y = true then 1 else 0) := by
    unfold daysSinceEpoch
    split
    · rename_i hl
      rw [isLeap_iff] at hl
      omega
    · rename_i hl
      rw [isLeap_iff] at hl
      omega
  by_cases h29 : m = 2 ∧ d = 29
  · obtain ⟨rfl, rfl⟩ := h29
    have hl : isLeap y = true := by
      cases hb : isLeap y
      · simp [daysIn, daysBefore, hb] at h4
      · rfl
    have hl1 := isLeap_succ y hl
    rw [hl] at hd
    simp [daysIn, daysBefore, hl, hl1, absDays, hd]
    omega
  · have hle : d ≤ daysIn m (y + 1) := by
      cases hb : isLeap y <;> cases hb1 : isLeap (y + 1) <;> interval_cases m <;>
        simp [daysIn, daysBefore, hb, hb1] at h4 ⊢ <;> omega
    rw [if_neg h29, if_pos hle]
    refine ⟨rfl, h1, h2, h3, hle, by simp only; omega, ?_⟩
    simp only [absDays, hd]
    cases hb : isLeap y <;> cases hb1 : isLeap (y + 1) <;> interval_cases m <;>
      simp [daysBefore] <;> omega

/-- The enrichment before the expiry block leaves `expires` alone, and its flag
is the one of the constraint loop. -/
theorem enrich_expires (env : Env) (inv : String) (query dd : List (String × String))
    (item mid : Item) (add0 : Bool) (h : enrich env inv query dd item = .ok (mid, add0)) :
    get mid "expires" = get item "expires" ∧ queryLoop item query true = .ok add0 := by
  unfold enrich at h
  rw [bind_eq_ok] at h
  obtain ⟨a, hq, h⟩ := h
  rw [bind_eq_ok] at h
  obtain ⟨i1, hvapp, h⟩ := h
  rw [bind_eq_ok] at h
  obtain ⟨i2, hdisk, h⟩ := h
  rw [bind_eq_ok] at h
  obtain ⟨i3, hnet, h⟩ := h
  simp only [Outcome.ok.injEq, Prod.mk.injEq] at h
  obtain ⟨rfl, rfl⟩ := h
  refine ⟨?_, hq⟩
  unfold diskLoop at hdisk
  rw [bind_eq_ok] at hdisk
  obtain ⟨a2, hdisk, s3⟩ := hdisk
  rw [bind_eq_ok] at hdisk
  obtain ⟨a1, hdisk, s2⟩ := hdisk
  rw [bind_eq_ok] at hdisk
  obtain ⟨a0, s0, s1⟩ := hdisk
  rw [networkStep_get _ _ _ hnet _ (by decide),
    diskStep_get _ _ _ _ _ s3 _ (by decide), diskStep_get _ _ _ _ _ s2 _ (by decide),
    diskStep_get _ _ _ _ _ s1 _ (by decide), diskStep_get _ _ _ _ _ s0 _ (by decide),
    vappStep_get _ _ _ _ hvapp _ (by decide) (by decide)]

/-! ## The range of coerced numbers -/

theorem excessBits_le (k fuel m : Nat) (h : m < 2 ^ (53 + k)) : excessBits fuel m ≤ k := by
  induction fuel generalizing m k with
  | zero => simp [excessBits]
  | succ fuel ih =>
    unfold excessBits
    split
    · omega
    · rename_i hm
      cases k with
      | zero => exact absurd h hm
      | succ k =>
        have h2 : m / 2 < 2 ^ (53 + k) := by
          have e : 2 ^ (53 + (k + 1)) = 2 ^ (53 + k) * 2 := by
            rw [← Nat.add_assoc, Nat.pow_succ]
          rw [e] at h
          exact Nat.div_lt_of_lt_mul (by omega)
        have := ih k (m / 2) h2
        omega

theorem roundNat_le (m : Nat) (h : m ≤ 2 ^ 63) : roundNat m ≤ 2 ^ 63 := by
  rcases Nat.lt_or_eq_of_le h with h | h
  · have he : excessBits 64 m ≤ 10 := excessBits_le 10 64 m (by simpa using h)
    unfold roundNat
    simp only
    generalize excessBits 64 m = e at he
    have hP : 2 ^ 63 = 2 ^ (63 - e) * 2 ^ e := by
      rw [← Nat.pow_add]
      congr 1
      omega
    have hq : m / 2 ^ e < 2 ^ (63 - e) := by
      apply Nat.div_lt_of_lt_mul
      rw [Nat.mul_comm, ← hP]
      exact h
    rw [hP]
    apply Nat.mul_le_mul_right
    split <;> omega
  · subst h
    decide

theorem roundFloat64_range (n : Int) (h1 : -(2 ^ 63 : Int) ≤ n) (h2 : n < (2 ^ 63 : Int)) :
    -(2 ^ 63 : Int) ≤ roundFloat64 n ∧ roundFloat64 n ≤ (2 ^ 63 : Int) := by
  have hm : n.natAbs ≤ 2 ^ 63 := by omega
  have := roundNat_le _ hm
  unfold roundFloat64
  split <;> constructor <;> omega

theorem atoi_range (s : String) (h : (atoi s).2 = false) :
    -(2 ^ 63 : Int) ≤ (atoi s).1 ∧ (atoi s).1 < (2 ^ 63 : Int) := by
  unfold atoi parseInt at h ⊢
  split at h
  · cases h
  · rename_i c cs hs
    simp only at h ⊢
    split at h
    · cases h
    · split at h <;> cases h
    · rename_i un hu
      by_cases hneg : c = '-'
      · simp only [hneg, decide_True, Bool.not_true, Bool.false_and, Bool.false_eq_true,
          if_false, Bool.true_and, decide_eq_true_eq] at h ⊢
        split at h
        · cases h
        · rename_i hle
          rw [if_neg hle]
          simp only [if_true]
          omega
      · simp only [hneg, decide_False, Bool.not_false, Bool.true_and, decide_eq_true_eq,
          Bool.false_and, Bool.false_eq_true, if_false] at h ⊢
        split at h
        · cases h
        · rename_i hle
          rw [if_neg hle]
          simp only
          omega

/-! ## Rows that are processed to the end -/

theorem queryLoop_of_satisfies (item : Item) (query : List (String × String)) (add : Bool)
    (h : satisfiesQuery item query) : queryLoop item query add = .ok add := by
  induction query generalizing add with
  | nil => rfl
  | cons qv rest ih =>
    obtain ⟨q, v⟩ := qv
    obtain ⟨s, hs, hor⟩ := h q v (List.mem_cons_self _ _)
    have hrest : satisfiesQuery item rest := fun q' v' hm =>
      h q' v' (List.mem_cons_of_mem _ hm)
    unfold queryLoop
    rw [hs]
    simp only
    have hc : ¬ (s ≠ v ∧ hasSuffix s v = false) := by
      rcases hor with e | e
      · exact fun hh => hh.1 e
      · intro hh
        rw [(hasSuffix_iff s v).2 e] at hh
        exact absurd hh.2 (by decide)
    rw [if_neg hc]
    exact ih add hrest

/-- A row that satisfies the query and whose vApp, disk and network blocks go
through reaches the expiry block with `add` set. -/
theorem enrich_of_steps (env : Env) (inv : String) (query dd : List (String × String))
    (item i1 i2 mid : Item) (hsat : satisfiesQuery item query)
    (h1 : vappStep env inv item = .ok i1) (h2 : diskLoop env dd i1 = .ok i2)
    (h3 : networkStep env i2 = .ok mid) :
    enrich env inv query dd item = .ok (mid, true) := by
  unfold enrich
  rw [queryLoop_of_satisfies item query true hsat]
  simp only [Outcome.bind, h1, h2, h3]

/-- The expiry block goes through when the text it finds in `expires` parses. -/
theorem expiryStep_run (now : Clock) (mid : Item) (add0 : Bool) (s : String) (date : Date)
    (h1 : get (fillExpires now mid) "expires" = some (.str s))
    (h2 : parseExpires s = some date) :
    ∃ out, expiryStep now mid add0 =
        .ok (out, if 168 * 3600 ≤ secondsPast now date then false else add0) ∧
      get out "expires" = some (.str s) ∧
      get out "power" = some (.str (if 0 < secondsPast now date then "false" else "true")) := by
  have hne : ("power" : String) ≠ "expires" := by decide
  have hex : ∃ out add, expiryStep now mid add0 = .ok (out, add) := by
    unfold expiryStep
    simp only [get_set_other _ _ _ _ hne, h1, h2]
    exact ⟨_, _, rfl⟩
  obtain ⟨out, add, hrun⟩ := hex
  obtain ⟨s', date', e1, e2, e3, e4, e5⟩ := expiryStep_ok _ _ _ _ _ hrun
  rw [h1] at e1
  simp only [Option.some.injEq, Value.str.injEq] at e1
  subst e1
  rw [h2] at e3
  cases e3
  exact ⟨out, by rw [hrun, e5], e2, e4⟩

/-! ## The fallback layout -/

theorem digitChar_ne (k : Nat) : digitChar k ≠ '-' ∧ digitChar k ≠ '/' ∧ digitChar k ≠ '+' := by
  unfold digitChar
  split <;> decide

theorem daysIn_le (m y : Nat) : daysIn m y ≤ 31 := by
  unfold daysIn
  split
  · omega
  · by_cases h : m ≤ 12
    · interval_cases m <;> decide
    · have e1 : daysBefore.getD m 0 = 0 := by
        unfold daysBefore
        rw [List.getD_eq_default]
        simp only [List.length_cons, List.length_nil]
        omega
      omega

/-- The `DD/MM/YYYY` text of a date, as a list of characters. -/
theorem formatDMY_data (d : Date) (hy : d.year ≤ 9999) (hm : d.month ≤ 12)
    (hd : d.day ≤ daysIn d.month d.year) :
    (formatDMY d).data =
      [digitChar (d.day / 10), digitChar (d.day % 10), '/', digitChar (d.month / 10),
        digitChar (d.month % 10), '/', digitChar (d.year / 1000),
        digitChar (d.year / 100 % 10), digitChar (d.year / 10 % 10),
        digitChar (d.year % 10)] := by
  have := daysIn_le d.month d.year
  unfold formatDMY
  rw [appendInt_four _ (by omega), appendInt_two d.month (by omega),
    appendInt_two d.day (by omega)]
  rfl

theorem parseDMY_formatDMY (d : Date) (hy : d.year ≤ 9999) (hm1 : 1 ≤ d.month)
    (hm2 : d.month ≤ 12) (hd1 : 1 ≤ d.day) (hd2 : d.day ≤ daysIn d.month d.year) :
    parseDMY (formatDMY d).data = some d := by
  have hday := daysIn_le d.month d.year
  rw [formatDMY_data d hy hm2 hd2]
  obtain ⟨y, m, dd⟩ := d
  simp only at hy hm1 hm2 hd1 hd2 hday ⊢
  have a1 := digitChar_spec (y / 1000) (by omega)
  have a2 := digitChar_spec (y / 100 % 10) (by omega)
  have a3 := digitChar_spec (y / 10 % 10) (by omega)
  have a4 := digitChar_spec (y % 10) (by omega)
  have b1 := digitChar_spec (m / 10) (by omega)
  have b2 := digitChar_spec (m % 10) (by omega)
  have c1 := digitChar_spec (dd / 10) (by omega)
  have c2 := digitChar_spec (dd % 10) (by omega)
  have ey : y / 1000 * 1000 + y / 100 % 10 * 100 + y / 10 % 10 * 10 + y % 10 = y := by omega
  have em : m / 10 * 10 + m % 10 = m := by omega
  have ed : dd / 10 * 10 + dd % 10 = dd := by omega
  simp only [parseDMY, and_self, if_true, num4, num2,
    a1.1, a2.1, a3.1, a4.1, b1.1, b2.1, c1.1, c2.1, a1.2, a2.2, a3.2, a4.2, b1.2, b2.2,
    c1.2, c2.2, ey, em, ed, mkDate]
  rw [if_pos ⟨hm1, hm2, hd1, hd2⟩]

theorem parseYMD_formatDMY (d : Date) (hy : d.year ≤ 9999) (hm : d.month ≤ 12)
    (hd : d.day ≤ daysIn d.month d.year) : parseYMD (formatDMY d).data = none := by
  rw [formatDMY_data d hy hm hd]
  have h := (digitChar_ne (d.month % 10)).1
  simp only [parseYMD, h, false_and, if_false]

theorem parseExpires_formatDMY (d : Date) (hy : d.year ≤ 9999) (hm1 : 1 ≤ d.month)
    (hm2 : d.month ≤ 12) (hd1 : 1 ≤ d.day) (hd2 : d.day ≤ daysIn d.month d.year) :
    parseExpires (formatDMY d) = some d := by
  unfold parseExpires
  rw [parseYMD_formatDMY d hy hm2 hd2, parseDMY_formatDMY d hy hm1 hm2 hd1 hd2]

/-- A cell holding the `DD/MM/YYYY` text of a date is no integer, so it stays a
string, and it is not empty. -/
theorem coerce_formatDMY (d : Date) (hy : d.year ≤ 9999) (hm : d.month ≤ 12)
    (hd : d.day ≤ daysIn d.month d.year) :
    coerce (formatDMY d) = .str (formatDMY d) ∧ formatDMY d ≠ "" := by
  have hday := daysIn_le d.month d.year
  have hdata := formatDMY_data d hy hm hd
  have c1 := digitChar_spec (d.day / 10) (by omega)
  have c2 := digitChar_spec (d.day % 10) (by omega)
  have n1 := digitChar_ne (d.day / 10)
  have hs : isDigit '/' = false := by decide
  have herr : (atoi (formatDMY d)).2 = true := by
    unfold atoi
    rw [hdata]
    simp only [parseInt, n1.1, n1.2.2, or_self, if_false, parseUint, parseUintLoop, c1.1, c2.1,
      c1.2, c2.2, hs, if_true, Bool.false_eq_true]
    have e1 : ¬ 2 ^ 64 ≤ 0 * 10 + d.day / 10 := by omega
    have e2 : ¬ 2 ^ 64 ≤ (0 * 10 + d.day / 10) * 10 + d.day % 10 := by omega
    simp only [if_neg e1, if_neg e2]
  constructor
  · unfold coerce
    rw [if_pos herr]
  · intro he
    rw [he] at hdata
    cases hdata

/-! ## The day before -/

theorem daysSinceEpoch_succ (y : Nat) :
    daysSinceEpoch (y + 1) = daysSinceEpoch y + 365 + (if isLeap y = true then 1 else 0) := by
  unfold daysSinceEpoch
  split
  · rename_i hl
    rw [isLeap_iff] at hl
    omega
  · rename_i hl
    rw [isLeap_iff] at hl
    omega

/-- The day before a calendar date of a year after year `0` is a calendar date,
one day earlier. -/
theorem prevDay_spec (d : Date) (hy : 1 ≤ d.year) (hm1 : 1 ≤ d.month) (hm2 : d.month ≤ 12)
    (hd1 : 1 ≤ d.day) (hd2 : d.day ≤ daysIn d.month d.year) :
    (prevDay d).year ≤ d.year ∧ 1 ≤ (prevDay d).month ∧ (prevDay d).month ≤ 12 ∧
    1 ≤ (prevDay d).day ∧ (prevDay d).day ≤ daysIn (prevDay d).month (prevDay d).year ∧
    absDays (prevDay d).year (prevDay d).month (prevDay d).day + 1 =
      absDays d.year d.month d.day := by
  obtain ⟨y, m, dd⟩ := d
  simp only at hy hm1 hm2 hd1 hd2
  unfold prevDay
  simp only
  split
  · refine ⟨le_refl _, hm1, hm2, ?_, ?_, ?_⟩
    · show 1 ≤ dd - 1
      omega
    · show dd - 1 ≤ daysIn m y
      omega
    · simp only [absDays]
      omega
  · have hd : dd = 1 := by omega
    subst hd
    split
    · cases hb : isLeap y <;> interval_cases m <;>
        simp [daysIn, daysBefore, absDays, hb] <;> omega
    · have hm : m = 1 := by omega
      subst hm
      obtain ⟨y', rfl⟩ : ∃ y', y = y' + 1 := ⟨y - 1, by omega⟩
      have hs := daysSinceEpoch_succ y'
      cases hb : isLeap y' <;> cases hb1 : isLeap (y' + 1) <;>
        simp [daysIn, daysBefore, absDays, hb, hb1] at hs ⊢ <;> omega

/-- The date of the default expiry: the anniversary, or the day before it when
`time.Date` lands on the evening before. -/
theorem defaultExpiry_spec (now : Clock) (hv : now.valid) :
    ∃ e : Date, defaultExpiry now = formatDate e ∧ parseExpires (formatDate e) = some e ∧
      (0 ≤ now.expiryShift → e = anniversary now) ∧
      (now.expiryShift < 0 → e = prevDay (anniversary now)) ∧
      secondsPast now e < 0 := by
  obtain ⟨hn, a1, a2, a3, a4, a5, a6⟩ := anniversary_spec now hv
  have hoff := hv.2.2.2.2.2.1
  have hs1 := hv.2.2.2.2.2.2.2.1
  have hs2 := hv.2.2.2.2.2.2.2.2
  have hy1 : 1 ≤ (anniversary now).year := by
    unfold anniversary
    split <;> simp
  by_cases hneg : now.expiryShift < 0
  · obtain ⟨p1, p2, p3, p4, p5, p6⟩ := prevDay_spec (anniversary now) hy1 a1 a2 a3 a4
    have hq : now.expiryShift / 86400 = Int.negSucc 0 := by
      show now.expiryShift / 86400 = -1
      omega
    refine ⟨prevDay (anniversary now), ?_,
      parseExpires_formatDate _ (by omega) p2 p3 p4 p5, fun h => absurd hneg (by omega),
      fun _ => rfl, ?_⟩
    · unfold defaultExpiry
      rw [hn, hq]
      rfl
    · unfold secondsPast
      omega
  · have hq : now.expiryShift / 86400 = Int.ofNat 0 := by
      show now.expiryShift / 86400 = 0
      omega
    refine ⟨anniversary now, ?_, parseExpires_formatDate _ a5 a1 a2 a3 a4, fun _ => rfl,
      fun h => absurd h hneg, ?_⟩
    · unfold defaultExpiry
      rw [hn, hq]
      rfl
    · unfold secondsPast
      omega

/-! ## The claims -/

/-- C1 (amended): for a row that is processed to the end and a slot `diskN`
(`N = 0..3`): an empty cell becomes the integer default, or `0` when the slot has
no default; for a cell holding an integer and a slot with an integer default the
output is at least the default; and when the integer in the cell has magnitude at
most `2^53`, the output is the cell's value when the slot has no default, and with
an integer default it is at least the cell's value and equal to it when that is at
least the default. -/
theorem C1_disk_policy (env : Env) (inv : String) (query defaults : List (String × String))
    (cells : List String) (row out : Item) (add : Bool) (i : Nat) (c : String)
    (hrow : normalizeRow cells = some row) (hi : i < 4) (hc : cells.get? (9 + i) = some c)
    (hrun : processItem env inv query defaults (jsonRoundTrip row) = .ok (out, add)) :
    (c = "" →
      (lookup defaults (diskKey i) = none → get out (diskKey i) = some (.int 0)) ∧
      (∀ dflt, lookup defaults (diskKey i) = some dflt → (atoi dflt).2 = false →
        get out (diskKey i) = some (.int (atoi dflt).1))) ∧
    ((atoi c).2 = false →
      (∀ dflt, lookup defaults (diskKey i) = some dflt → (atoi dflt).2 = false →
        ∃ n, (get out (diskKey i)).bind Value.toInt = some n ∧ (atoi dflt).1 ≤ n) ∧
      (-(2 ^ 53 : Int) ≤ (atoi c).1 → (atoi c).1 ≤ (2 ^ 53 : Int) →
        (lookup defaults (diskKey i) = none →
          get out (diskKey i) = some (.float (atoi c).1)) ∧
        (∀ dflt, lookup defaults (diskKey i) = some dflt → (atoi dflt).2 = false →
          ∃ n, (get out (diskKey i)).bind Value.toInt = some n ∧ (atoi dflt).1 ≤ n ∧
            (atoi c).1 ≤ n ∧ ((atoi dflt).1 ≤ (atoi c).1 → n = (atoi c).1)))) := by
  obtain ⟨mid, mid', hstep, hmid, hout⟩ :=
    processItem_disk env inv query defaults _ out add i hi hrun
  rw [disk_before cells row hrow i hi c hc] at hmid
  have hself := diskStep_self env defaults mid mid' i hstep
  rw [hmid, ← hout] at hself
  constructor
  · intro hce
    subst hce
    rw [coerce_empty] at hself
    rcases hself with ⟨_, h | ⟨dflt, hl, hv⟩⟩ | ⟨he, _⟩
    · refine ⟨fun _ => h.2, fun dflt hl _ => ?_⟩
      rw [h.1] at hl
      cases hl
    · refine ⟨fun hn => ?_, fun dflt' hl' _ => ?_⟩
      · rw [hn] at hl
        cases hl
      · rw [hl] at hl'
        cases hl'
        exact hv
    · simp [jsonValue, isEmptyOrNil] at he
  · intro hok
    rw [coerce_int c hok] at hself
    simp only [jsonValue] at hself
    obtain ⟨hr1, hr2⟩ := atoi_range c hok
    obtain ⟨hf1, hf2⟩ := roundFloat64_range _ hr1 hr2
    constructor
    · intro dflt hl hd
      obtain ⟨_, hd2⟩ := atoi_range dflt hd
      rcases hself with ⟨he, _⟩ | ⟨_, h | ⟨dflt', f, hl', hf, hv⟩⟩
      · simp [isEmptyOrNil] at he
      · rw [h.1] at hl
        cases hl
      · rw [hl] at hl'
        cases hl'
        simp only [Option.some.injEq, Value.float.injEq] at hf
        subst hf
        rw [hd] at hv
        simp only [Bool.false_eq_true, if_false] at hv
        by_cases hlt : floatToInt env.floatOverflow (roundFloat64 (atoi c).1) < (atoi dflt).1
        · rw [if_pos hlt] at hv
          exact ⟨(atoi dflt).1, by rw [hv]; rfl, le_refl _⟩
        · rw [if_neg hlt] at hv
          refine ⟨roundFloat64 (atoi c).1, by rw [hv]; rfl, ?_⟩
          unfold floatToInt at hlt
          split at hlt <;> omega
    · intro hlo hhi
      rw [roundFloat64_small _ hlo hhi] at hself
      rcases hself with ⟨he, _⟩ | ⟨_, h | ⟨dflt, f, hl, hf, hv⟩⟩
      · simp [isEmptyOrNil] at he
      · refine ⟨fun _ => h.2, fun dflt hl _ => ?_⟩
        rw [h.1] at hl
        cases hl
      · refine ⟨fun hn => ?_, fun dflt' hl' hd => ?_⟩
        · rw [hn] at hl
          cases hl
        · rw [hl] at hl'
          cases hl'
          simp only [Option.some.injEq, Value.float.injEq] at hf
          subst hf
          rw [floatToInt_small _ _ hlo hhi, hd] at hv
          simp only [Bool.false_eq_true, if_false] at hv
          by_cases hlt : (atoi c).1 < (atoi dflt).1
          · rw [if_pos hlt] at hv
            refine ⟨(atoi dflt).1, by rw [hv]; rfl, le_refl _, le_of_lt hlt, fun hle => ?_⟩
            omega
          · rw [if_neg hlt] at hv
            refine ⟨(atoi c).1, by rw [hv]; rfl, by omega, le_refl _, fun _ => rfl⟩

/-- C1 at a concrete row: cell `40` in `disk1` with default `20`. -/
theorem C1_disk_policy_witness :
    normalizeRow (sampleCells "2" "" "40" "") =
      some (sampleItem (.int 24) (.int 2) (.int 4096) (.str "") (.int 40) (.str "") (.str "")
        (.str "") []) ∧
    (1 < 4 ∧ (sampleCells "2" "" "40" "").get? (9 + 1) = some "40") ∧
    processItem (sampleEnv sampleClock []) "/dc1" [] [("disk0", "20"), ("disk1", "20")]
      (jsonRoundTrip (sampleItem (.int 24) (.int 2) (.int 4096) (.str "") (.int 40) (.str "")
        (.str "") (.str "") [])) =
      .ok (sampleItem (.float 24) (.float 2) (.float 4096) (.int 20) (.float 40) (.int 0)
        (.int 0) (.str "2025-03-10") [("power", .str "true")], true) ∧
    ∃ n, (get (sampleItem (.float 24) (.float 2) (.float 4096) (.int 20) (.float 40) (.int 0)
        (.int 0) (.str "2025-03-10") [("power", .str "true")]) (diskKey 1)).bind Value.toInt =
        some n ∧ (atoi "20").1 ≤ n ∧ (atoi "40").1 ≤ n ∧
        ((atoi "20").1 ≤ (atoi "40").1 → n = (atoi "40").1) :=
  ⟨by decide, ⟨by decide, by decide⟩, by decide,
    (((C1_disk_policy (sampleEnv sampleClock []) "/dc1" [] [("disk0", "20"), ("disk1", "20")]
      (sampleCells "2" "" "40" "")
      (sampleItem (.int 24) (.int 2) (.int 4096) (.str "") (.int 40) (.str "") (.str "")
        (.str "") [])
      (sampleItem (.float 24) (.float 2) (.float 4096) (.int 20) (.float 40) (.int 0)
        (.int 0) (.str "2025-03-10") [("power", .str "true")])
      true 1 "40" (by decide) (by decide) (by decide) (by decide)).2 (by decide)).2
      (by decide) (by decide)).2 "20" (by decide) (by decide)⟩

/-- C1 (as stated) fails: with default `20` for `disk0`, the cell
`9007199254740993` (an integer, not below the default) is reported as
`9007199254740992`, which is lower: the JSON round trip stores it in a
`float64`. -/
theorem C1_counterexample :
    atoi "9007199254740993" = (9007199254740993, false) ∧ atoi "20" = (20, false) ∧
    resultField (dataSourceVSphereCSVRead
      (sampleEnv sampleClock [.record (sampleCells "2" "9007199254740993" "" "")])
      (sampleConfig "machines.csv" [] [("disk0", "20")])) "disk0" =
      some [some (.float 9007199254740992)] := by
  decide

/-- C2 (amended): for a row that is processed to the end, `power` is `"false"`
exactly when the start of today in the local zone is later than midnight UTC of
the parsed expiry date, and `"true"` otherwise; with a clock in UTC, `power` is
`"false"` exactly when the expiry date is strictly before the current date, so an
expiry date equal to today gives `"true"`. -/
theorem C2_power (env : Env) (inv : String) (query defaults : List (String × String))
    (item out : Item) (add : Bool)
    (hrun : processItem env inv query defaults item = .ok (out, add)) :
    ∃ s date, get out "expires" = some (.str s) ∧ parseExpires s = some date ∧
      (get out "power" = some (.str "false") ↔ 0 < secondsPast env.now date) ∧
      (get out "power" = some (.str "true") ↔ secondsPast env.now date ≤ 0) ∧
      (env.now.offset = 0 →
        (get out "power" = some (.str "false") ↔
          absDays date.year date.month date.day <
            absDays env.now.year env.now.month env.now.day)) := by
  unfold processItem at hrun
  rw [bind_eq_ok] at hrun
  obtain ⟨r, _, hexp⟩ := hrun
  obtain ⟨s, date, _, hs, hd, hp, _⟩ := expiryStep_ok _ _ _ _ _ hexp
  refine ⟨s, date, hs, hd, ?_⟩
  by_cases h : 0 < secondsPast env.now date
  · rw [if_pos h] at hp
    rw [hp]
    refine ⟨by simp [h], ?_, fun h0 => ?_⟩
    · constructor
      · intro e
        exact absurd e (by decide)
      · intro e
        omega
    · simp only [true_iff]
      unfold secondsPast at h
      omega
  · rw [if_neg h] at hp
    rw [hp]
    refine ⟨?_, ?_, fun h0 => ?_⟩
    · constructor
      · intro e
        exact absurd e (by decide)
      · intro e
        exact absurd e h
    · simp only [true_iff]
      omega
    · constructor
      · intro e
        exact absurd e (by decide)
      · intro e
        unfold secondsPast at h
        omega

/-- C2 at a concrete row: expiry a day before the current date. -/
theorem C2_power_witness :
    processItem (sampleEnv sampleClock []) "/dc1" [] []
      (sampleItem (.float 24) (.float 2) (.float 4096) (.str "") (.str "") (.str "") (.str "")
        (.str "2024-03-09") []) =
      .ok (sampleItem (.float 24) (.float 2) (.float 4096) (.int 0) (.int 0) (.int 0) (.int 0)
        (.str "2024-03-09") [("power", .str "false")], true) ∧
    ∃ s date, get (sampleItem (.float 24) (.float 2) (.float 4096) (.int 0) (.int 0) (.int 0)
        (.int 0) (.str "2024-03-09") [("power", .str "false")]) "expires" = some (.str s) ∧
      parseExpires s = some date ∧
      (get (sampleItem (.float 24) (.float 2) (.float 4096) (.int 0) (.int 0) (.int 0)
        (.int 0) (.str "2024-03-09") [("power", .str "false")]) "power" = some (.str "false") ↔
        0 < secondsPast sampleClock date) :=
  ⟨by decide,
    (C2_power (sampleEnv sampleClock []) "/dc1" [] []
      (sampleItem (.float 24) (.float 2) (.float 4096) (.str "") (.str "") (.str "") (.str "")
        (.str "2024-03-09") [])
      (sampleItem (.float 24) (.float 2) (.float 4096) (.int 0) (.int 0) (.int 0) (.int 0)
        (.str "2024-03-09") [("power", .str "false")])
      true (by decide)).imp fun _ h => h.imp fun _ h => ⟨h.1, h.2.1, h.2.2.1⟩⟩

/-- C2 (as stated) fails: on 10 March 2024 (UTC) a row expiring on 10 March 2024
is reported with power `"true"`, although its expiry date is on the current
date. -/
theorem C2_counterexample :
    parseExpires "2024-03-10" = some ⟨sampleClock.year, sampleClock.month, sampleClock.day⟩ ∧
    resultField (dataSourceVSphereCSVRead
      (sampleEnv sampleClock [.record (sampleCells "2" "" "" "2024-03-10")])
      (sampleConfig "machines.csv" [] [])) "power" = some [some (.str "true")] := by
  decide

/-- C3: when a run sets a result, the result consists of the records of the rows
whose `add` survived, in order; every row was processed to the end; a row whose
expiry lies 168 hours or more before the start of today is left out whether or
not it satisfies the query; a row that satisfies the query is in the result
exactly when that difference is below 168 hours; and an expired row inside the
window that satisfies the query is reported with power `"false"`. -/
theorem C3_grace_window (env : Env) (cfg : Config) (result : List Item)
    (hrun : dataSourceVSphereCSVRead env cfg = .ok result) :
    ∃ inv rows, env.datacenterFromID cfg.datacenterId = some inv ∧
      readRows 0 ((env.readFile cfg.csvfile).getD []) [] = .ok rows ∧
      result = keptRows env inv cfg.query cfg.defaultDisks (rows.map jsonRoundTrip) ∧
      ∀ item ∈ rows.map jsonRoundTrip, ∃ out add s date,
        processItem env inv cfg.query cfg.defaultDisks item = .ok (out, add) ∧
        get out "expires" = some (.str s) ∧ parseExpires s = some date ∧
        (168 * 3600 ≤ secondsPast env.now date → add = false) ∧
        (satisfiesQuery item cfg.query →
          (add = true ↔ secondsPast env.now date < 168 * 3600)) ∧
        (satisfiesQuery item cfg.query → 0 < secondsPast env.now date →
          secondsPast env.now date < 168 * 3600 →
          add = true ∧ get out "power" = some (.str "false")) := by
  unfold dataSourceVSphereCSVRead at hrun
  split at hrun
  · cases hrun
  · split at hrun
    · cases hrun
    · rename_i inv hinv
      split at hrun
      · cases hrun
      · simp only at hrun
        rw [bind_eq_ok] at hrun
        obtain ⟨rows, hrows, hloop⟩ := hrun
        obtain ⟨hres, hall⟩ := filterLoop_ok _ _ _ _ _ _ _ hloop
        refine ⟨inv, rows, hinv, hrows, by simpa using hres, ?_⟩
        intro item hm
        obtain ⟨out, add, hp⟩ := hall item hm
        obtain ⟨mid, add0, s, date, _, q1, q2, _, h2, h3, h4, h5⟩ :=
          processItem_ok _ _ _ _ _ _ _ hp
        refine ⟨out, add, s, date, hp, h2, h3, ?_, ?_, ?_⟩
        · intro hg
          rw [h5, if_pos hg]
        · intro hsat
          rw [h5, q1 hsat]
          by_cases hg : 168 * 3600 ≤ secondsPast env.now date
          · rw [if_pos hg]
            constructor
            · intro e
              cases e
            · intro e
              omega
          · rw [if_neg hg]
            simp only [true_iff]
            omega
        · intro hsat hpos hlt
          rw [h5, q1 hsat, h4, if_pos hpos, if_neg (by omega)]
          exact ⟨rfl, rfl⟩

/-- C3 at a concrete file: on 10 March 2024 a row expired on 1 March is left out,
a row expired on 8 March is reported, and so is a row expiring on 1 April. -/
theorem C3_grace_window_witness :
    dataSourceVSphereCSVRead (sampleEnv sampleClock sampleFile)
      (sampleConfig "machines.csv" [] []) = .ok sampleResult ∧
    ∃ (inv : String) (rows : List Item), (sampleEnv sampleClock sampleFile).datacenterFromID
        (sampleConfig "machines.csv" [] []).datacenterId = some inv ∧
      sampleResult =
        keptRows (sampleEnv sampleClock sampleFile) inv [] [] (rows.map jsonRoundTrip) := by
  refine ⟨by decide, ?_⟩
  obtain ⟨inv, rows, h1, _, h3, _⟩ :=
    C3_grace_window (sampleEnv sampleClock sampleFile) (sampleConfig "machines.csv" [] [])
      sampleResult (by decide)
  exact ⟨inv, rows, h1, h3⟩

/-- C4: a row whose `expires` cell is `not-a-date` makes the run return the
invalid-date-format error, but a row whose `expires` cell is all digits, such as
`20200101`, makes the run panic: the cell was coerced to a number and
`item["expires"].(string)` fails. -/
theorem C4_digit_expiry_panics :
    dataSourceVSphereCSVRead
      (sampleEnv sampleClock [.record (sampleCells "2" "" "" "not-a-date")])
      (sampleConfig "machines.csv" [] []) = .error .invalidDateFormat ∧
    dataSourceVSphereCSVRead
      (sampleEnv sampleClock [.record (sampleCells "2" "" "" "20200101")])
      (sampleConfig "machines.csv" [] []) = .panic := by
  decide

/-- C5: a constraint on a string field is a suffix test, but a constraint on a
field that was coerced to a number (`cpu`), or on a key the row does not have
(`owner`), makes the run panic in `item[q].(string)` instead of rejecting the
row. -/
theorem C5_query_panics :
    dataSourceVSphereCSVRead
      (sampleEnv sampleClock [.record (sampleCells "2" "" "" "")])
      (sampleConfig "machines.csv" [("template", "mpl")] []) =
      .ok [sampleItem (.float 24) (.float 2) (.float 4096) (.int 0) (.int 0) (.int 0) (.int 0)
        (.str "2025-03-10") [("power", .str "true")]] ∧
    dataSourceVSphereCSVRead
      (sampleEnv sampleClock [.record (sampleCells "2" "" "" "")])
      (sampleConfig "machines.csv" [("template", "other")] []) = .ok [] ∧
    dataSourceVSphereCSVRead
      (sampleEnv sampleClock [.record (sampleCells "2" "" "" "")])
      (sampleConfig "machines.csv" [("cpu", "2")] []) = .panic ∧
    dataSourceVSphereCSVRead
      (sampleEnv sampleClock [.record (sampleCells "2" "" "" "")])
      (sampleConfig "machines.csv" [("cpu", "4")] []) = .panic ∧
    dataSourceVSphereCSVRead
      (sampleEnv sampleClock [.record (sampleCells "2" "" "" "")])
      (sampleConfig "machines.csv" [("owner", "ops")] []) = .panic := by
  decide

/-- C6: when `ioutil.ReadFile` fails on `csvfile` (and the datacenter and the
datastore cluster were found), the run returns `nil` with an empty result: the
error of `ReadFile` is never looked at. -/
theorem C6_missing_file_succeeds (env : Env) (cfg : Config) (inv : String)
    (hid : cfg.datacenterId ≠ "") (hdc : env.datacenterFromID cfg.datacenterId = some inv)
    (hpod : env.datastoreClusterFound cfg.datastoreCluster = true)
    (hfile : env.readFile cfg.csvfile = none) :
    dataSourceVSphereCSVRead env cfg = .ok [] := by
  unfold dataSourceVSphereCSVRead
  rw [if_neg hid, hdc]
  simp only [hpod, hfile, Bool.true_eq_false, if_false, Option.getD_none, readRows,
    Outcome.bind, List.map_nil, filterLoop]

/-- C6 at a concrete input: the file `missing.csv` that cannot be read. -/
theorem C6_missing_file_succeeds_witness :
    (sampleConfig "missing.csv" [] []).datacenterId ≠ "" ∧
    (sampleEnv sampleClock sampleFile).datacenterFromID
      (sampleConfig "missing.csv" [] []).datacenterId = some "/dc1" ∧
    (sampleEnv sampleClock sampleFile).datastoreClusterFound
      (sampleConfig "missing.csv" [] []).datastoreCluster = true ∧
    (sampleEnv sampleClock sampleFile).readFile (sampleConfig "missing.csv" [] []).csvfile =
      none ∧
    dataSourceVSphereCSVRead (sampleEnv sampleClock sampleFile)
      (sampleConfig "missing.csv" [] []) = .ok [] :=
  ⟨by decide, by decide, by decide, by decide,
    C6_missing_file_succeeds (sampleEnv sampleClock sampleFile)
      (sampleConfig "missing.csv" [] []) "/dc1" (by decide) (by decide) (by decide)
      (by decide)⟩

/-- C7: a record with another cell count than the first record makes the run
return the read error; but when the first record itself has 13 cells the run
panics on `record[13]`, when it has 15 cells the run panics on `columns[14]`, and
when its 13 cells are the first 13 column names it is dropped as a header and the
run succeeds with an empty result. -/
theorem C7_cell_count :
    dataSourceVSphereCSVRead
      (sampleEnv sampleClock [.record (sampleCells "2" "" "" ""),
        .record ((sampleCells "2" "" "" "").take 13)])
      (sampleConfig "machines.csv" [] []) = .error .csvRead ∧
    dataSourceVSphereCSVRead
      (sampleEnv sampleClock [.record ((sampleCells "2" "" "" "").take 13)])
      (sampleConfig "machines.csv" [] []) = .panic ∧
    dataSourceVSphereCSVRead
      (sampleEnv sampleClock [.record (sampleCells "2" "" "" "" ++ ["extra"])])
      (sampleConfig "machines.csv" [] []) = .panic ∧
    dataSourceVSphereCSVRead
      (sampleEnv sampleClock [.record (columns.take 13)])
      (sampleConfig "machines.csv" [] []) = .ok [] := by
  decide

/-- C8 (amended): for a clock whose following year has at most four digits, a row
with an empty `expires` cell that satisfies the query and whose vApp, disk and
network blocks go through is processed to the end and reported; its record has
power `"true"` and `expires` equal to the `YYYY-MM-DD` text of the same month and
day of the following year, or of 1 March of the following year when the current
date is 29 February; when the zone skips the midnight of that date and
`time.Date` lands on the evening before, `expires` is the text of the day before
that date. -/
theorem C8_default_expiry (env : Env) (inv : String) (query defaults : List (String × String))
    (cells : List String) (row i1 i2 mid : Item)
    (hvalid : env.now.valid) (hrow : normalizeRow cells = some row)
    (hc : cells.get? 13 = some "")
    (hsat : satisfiesQuery (jsonRoundTrip row) query)
    (h1 : vappStep env inv (jsonRoundTrip row) = .ok i1)
    (h2 : diskLoop env defaults i1 = .ok i2) (h3 : networkStep env i2 = .ok mid) :
    ∃ out s date, processItem env inv query defaults (jsonRoundTrip row) = .ok (out, true) ∧
      get out "expires" = some (.str s) ∧ parseExpires s = some date ∧ s = formatDate date ∧
      (0 ≤ env.now.expiryShift → date = anniversary env.now) ∧
      (env.now.expiryShift < 0 → date = prevDay (anniversary env.now)) ∧
      get out "power" = some (.str "true") := by
  obtain ⟨e, he, hparse, hpos, hneg, hsec⟩ := defaultExpiry_spec env.now hvalid
  have henrich := enrich_of_steps env inv query defaults _ i1 i2 mid hsat h1 h2 h3
  obtain ⟨hexp, _⟩ := enrich_expires _ _ _ _ _ _ _ henrich
  rw [get_jsonRoundTrip, normalizeRow_expires cells row hrow "" hc, coerce_empty] at hexp
  have hfill : get (fillExpires env.now mid) "expires" = some (.str (formatDate e)) := by
    unfold fillExpires
    rw [hexp, he]
    simp only [Option.map_some', jsonValue, isEmptyOrNil, decide_True, if_true, get_set_self]
  obtain ⟨out, hrun, hs, hp⟩ := expiryStep_run env.now mid true _ e hfill hparse
  rw [if_neg (by omega)] at hrun
  rw [if_neg (by omega)] at hp
  refine ⟨out, formatDate e, e, ?_, hs, hparse, rfl, hpos, hneg, hp⟩
  unfold processItem
  rw [henrich]
  exact hrun

/-- C8 at the scenario row of the specification, on 10 March 2024, with default
`20` for `disk0` and no query: `disk0` is `20`, the other disks are `0`, power is
`"true"` and `expires` is 10 March 2025. -/
theorem C8_default_expiry_witness :
    sampleClock.valid ∧
    normalizeRow (sampleCells "2" "" "" "") =
      some (sampleItem (.int 24) (.int 2) (.int 4096) (.str "") (.str "") (.str "") (.str "")
        (.str "") []) ∧
    (sampleCells "2" "" "" "").get? 13 = some "" ∧
    processItem (sampleEnv sampleClock []) "/dc1" [] [("disk0", "20")]
      (jsonRoundTrip (sampleItem (.int 24) (.int 2) (.int 4096) (.str "") (.str "") (.str "")
        (.str "") (.str "") [])) =
      .ok (sampleItem (.float 24) (.float 2) (.float 4096) (.int 20) (.int 0) (.int 0) (.int 0)
        (.str "2025-03-10") [("power", .str "true")], true) ∧
    ∃ out s date, processItem (sampleEnv sampleClock []) "/dc1" [] [("disk0", "20")]
        (jsonRoundTrip (sampleItem (.int 24) (.int 2) (.int 4096) (.str "") (.str "") (.str "")
          (.str "") (.str "") [])) = .ok (out, true) ∧
      get out "expires" = some (.str s) ∧ parseExpires s = some date ∧ s = formatDate date ∧
      date = anniversary sampleClock ∧ get out "power" = some (.str "true") := by
  refine ⟨by decide, by decide, by decide, by decide, ?_⟩
  have hsat : satisfiesQuery (jsonRoundTrip (sampleItem (.int 24) (.int 2) (.int 4096)
      (.str "") (.str "") (.str "") (.str "") (.str "") [])) [] := by
    intro q v hm
    cases hm
  obtain ⟨out, s, date, k1, k2, k3, k4, k5, _, k7⟩ :=
    C8_default_expiry (sampleEnv sampleClock []) "/dc1" [] [("disk0", "20")]
      (sampleCells "2" "" "" "")
      (sampleItem (.int 24) (.int 2) (.int 4096) (.str "") (.str "") (.str "") (.str "")
        (.str "") [])
      (sampleItem (.float 24) (.float 2) (.float 4096) (.str "") (.str "") (.str "") (.str "")
        (.str "") [])
      (sampleItem (.float 24) (.float 2) (.float 4096) (.int 20) (.int 0) (.int 0) (.int 0)
        (.str "") [])
      (sampleItem (.float 24) (.float 2) (.float 4096) (.int 20) (.int 0) (.int 0) (.int 0)
        (.str "") [])
      (by decide) (by decide) (by decide) hsat (by decide) (by decide) (by decide)
  exact ⟨out, s, date, k1, k2, k3, k4, k5 (by decide), k7⟩

/-- C8 (as stated) fails.  On 29 February 2024 the empty `expires` becomes
`2025-03-01`, which is not 29 February of the following year (there is no such
date) but the day 366 days later.  And on 31 March 2023 in the Azores, where the
clocks are put forward at midnight of 31 March 2024, it becomes `2024-03-30`. -/
theorem C8_counterexample :
    resultField (dataSourceVSphereCSVRead
      (sampleEnv ⟨2024, 2, 29, 0, 0⟩ [.record (sampleCells "2" "" "" "")])
      (sampleConfig "machines.csv" [] [("disk0", "20")])) "expires" =
      some [some (.str "2025-03-01")] ∧
    formatDate ⟨2024 + 1, 2, 29⟩ = "2025-02-29" ∧ mkDate (2024 + 1) 2 29 = none ∧
    absDays 2025 3 1 - absDays 2024 2 29 = 366 ∧
    resultField (dataSourceVSphereCSVRead
      (sampleEnv ⟨2023, 3, 31, 0, -3600⟩ [.record (sampleCells "2" "" "" "")])
      (sampleConfig "machines.csv" [] [("disk0", "20")])) "expires" =
      some [some (.str "2024-03-30")] ∧
    formatDate ⟨2023 + 1, 3, 31⟩ = "2024-03-31" := by
  decide

/-- C9 (amended): for a row that is processed to the end, the text in `expires`
of its record is the text that was parsed as its expiry date: the cell's own
text, unchanged, when the cell is not empty, and the text of the default expiry
when the cell is empty.  A cell holding the `DD/MM/YYYY` text of a calendar date
is rejected by the layout `YYYY-MM-DD` and accepted by the fallback layout as
that date; a row with such a cell that satisfies the query and whose vApp, disk
and network blocks go through is processed to the end, with `expires` as written
in the cell (not rewritten to `YYYY-MM-DD`), and it is reported exactly when the
date is less than 168 hours past. -/
theorem C9_expires_text (env : Env) (inv : String) (query defaults : List (String × String))
    (cells : List String) (row : Item) (c : String)
    (hrow : normalizeRow cells = some row) (hc : cells.get? 13 = some c) :
    (∀ out add, processItem env inv query defaults (jsonRoundTrip row) = .ok (out, add) →
      ∃ s date, get out "expires" = some (.str s) ∧ parseExpires s = some date ∧
        (c ≠ "" → s = c) ∧
        (c ≠ "" → parseYMD c.data = none → parseDMY c.data = some date) ∧
        (c = "" → s = defaultExpiry env.now)) ∧
    (∀ (date : Date) (i1 i2 mid : Item), date.valid → c = formatDMY date →
      satisfiesQuery (jsonRoundTrip row) query →
      vappStep env inv (jsonRoundTrip row) = .ok i1 → diskLoop env defaults i1 = .ok i2 →
      networkStep env i2 = .ok mid →
      parseYMD c.data = none ∧ parseDMY c.data = some date ∧
      ∃ out add, processItem env inv query defaults (jsonRoundTrip row) = .ok (out, add) ∧
        get out "expires" = some (.str c) ∧
        (add = true ↔ secondsPast env.now date < 168 * 3600)) := by
  constructor
  · intro out add hrun
    obtain ⟨mid, add0, s, date, henrich, _, _, hfill, hs, hd, _, _⟩ :=
      processItem_ok _ _ _ _ _ _ _ hrun
    obtain ⟨hexp, _⟩ := enrich_expires _ _ _ _ _ _ _ henrich
    rw [get_jsonRoundTrip, normalizeRow_expires cells row hrow c hc] at hexp
    have key : (c ≠ "" → s = c) ∧ (c = "" → s = defaultExpiry env.now) := by
      unfold fillExpires at hfill
      by_cases hce : c = ""
      · subst hce
        rw [hexp, coerce_empty] at hfill
        simp only [Option.map_some', jsonValue, isEmptyOrNil, decide_True, if_true,
          get_set_self, Option.some.injEq, Value.str.injEq] at hfill
        exact ⟨fun h => absurd rfl h, fun _ => hfill.symm⟩
      · refine ⟨fun _ => ?_, fun h => absurd h hce⟩
        rw [hexp] at hfill
        unfold coerce at hfill
        split at hfill
        · simp only [Option.map_some', jsonValue, isEmptyOrNil, hce, decide_False,
            Bool.false_eq_true, if_false] at hfill
          rw [hexp] at hfill
          unfold coerce at hfill
          simp_all [jsonValue]
        · simp only [Option.map_some', jsonValue, isEmptyOrNil, Bool.false_eq_true,
            if_false] at hfill
          rw [hexp] at hfill
          unfold coerce at hfill
          simp_all [jsonValue]
    refine ⟨s, date, hs, hd, key.1, fun hne hy => ?_, key.2⟩
    have := key.1 hne
    subst this
    unfold parseExpires at hd
    rw [hy] at hd
    exact hd
  · intro date i1 i2 mid hv hcd hsat h1 h2 h3
    obtain ⟨v1, v2, v3, v4, v5⟩ := hv
    subst hcd
    have hy := parseYMD_formatDMY date v1 v3 v5
    have hd := parseDMY_formatDMY date v1 v2 v3 v4 v5
    have hp := parseExpires_formatDMY date v1 v2 v3 v4 v5
    obtain ⟨hco, hne⟩ := coerce_formatDMY date v1 v3 v5
    refine ⟨hy, hd, ?_⟩
    have henrich := enrich_of_steps env inv query defaults _ i1 i2 mid hsat h1 h2 h3
    obtain ⟨hexp, _⟩ := enrich_expires _ _ _ _ _ _ _ henrich
    rw [get_jsonRoundTrip, normalizeRow_expires cells row hrow _ hc, hco] at hexp
    have hfill : get (fillExpires env.now mid) "expires" = some (.str (formatDMY date)) := by
      unfold fillExpires
      rw [hexp]
      simp only [Option.map_some', jsonValue, isEmptyOrNil, hne, decide_False,
        Bool.false_eq_true, if_false]
      exact hexp
    obtain ⟨out, hrun, hs, _⟩ := expiryStep_run env.now mid true _ date hfill hp
    refine ⟨out, (if 168 * 3600 ≤ secondsPast env.now date then false else true), ?_, hs, ?_⟩
    · unfold processItem
      rw [henrich]
      exact hrun
    · by_cases hg : 168 * 3600 ≤ secondsPast env.now date
      · rw [if_pos hg]
        constructor
        · intro e
          cases e
        · intro e
          omega
      · rw [if_neg hg]
        simp only [true_iff]
        omega

/-- C9 at a concrete row: on 15 January 2020 the cell `01/02/2020`, the
`DD/MM/YYYY` text of 1 February 2020. -/
theorem C9_expires_text_witness :
    normalizeRow (sampleCells "2" "" "" "01/02/2020") =
      some (sampleItem (.int 24) (.int 2) (.int 4096) (.str "") (.str "") (.str "") (.str "")
        (.str "01/02/2020") []) ∧
    (sampleCells "2" "" "" "01/02/2020").get? 13 = some "01/02/2020" ∧
    (Date.mk 2020 2 1).valid ∧ "01/02/2020" = formatDMY ⟨2020, 2, 1⟩ ∧
    parseYMD "01/02/2020".data = none ∧ parseDMY "01/02/2020".data = some ⟨2020, 2, 1⟩ ∧
    ∃ out add, processItem (sampleEnv ⟨2020, 1, 15, 0, 0⟩ []) "/dc1" [] []
        (jsonRoundTrip (sampleItem (.int 24) (.int 2) (.int 4096) (.str "") (.str "") (.str "")
          (.str "") (.str "01/02/2020") [])) = .ok (out, add) ∧
      get out "expires" = some (.str "01/02/2020") := by
  have hsat : satisfiesQuery (jsonRoundTrip (sampleItem (.int 24) (.int 2) (.int 4096)
      (.str "") (.str "") (.str "") (.str "") (.str "01/02/2020") [])) [] := by
    intro q v hm
    cases hm
  obtain ⟨k1, k2, out, add, k3, k4, _⟩ :=
    (C9_expires_text (sampleEnv ⟨2020, 1, 15, 0, 0⟩ []) "/dc1" [] []
      (sampleCells "2" "" "" "01/02/2020")
      (sampleItem (.int 24) (.int 2) (.int 4096) (.str "") (.str "") (.str "") (.str "")
        (.str "01/02/2020") [])
      "01/02/2020" (by decide) (by decide)).2 ⟨2020, 2, 1⟩
      (sampleItem (.float 24) (.float 2) (.float 4096) (.str "") (.str "") (.str "") (.str "")
        (.str "01/02/2020") [])
      (sampleItem (.float 24) (.float 2) (.float 4096) (.int 0) (.int 0) (.int 0) (.int 0)
        (.str "01/02/2020") [])
      (sampleItem (.float 24) (.float 2) (.float 4096) (.int 0) (.int 0) (.int 0) (.int 0)
        (.str "01/02/2020") [])
      (by decide) (by decide) hsat (by decide) (by decide) (by decide)
  exact ⟨by decide, by decide, by decide, by decide, k1, k2, out, add, k3, k4⟩

/-- C9 (as stated) fails: on 15 January 2020 a row whose `expires` cell is
`01/02/2020` is parsed as 1 February 2020 and reported with `expires` still
`01/02/2020`, not `2020-02-01`. -/
theorem C9_counterexample :
    parseExpires "01/02/2020" = some ⟨2020, 2, 1⟩ ∧ formatDate ⟨2020, 2, 1⟩ = "2020-02-01" ∧
    resultField (dataSourceVSphereCSVRead
      (sampleEnv ⟨2020, 1, 15, 0, 0⟩ [.record (sampleCells "2" "" "" "01/02/2020")])
      (sampleConfig "machines.csv" [] [])) "expires" = some [some (.str "01/02/2020")] := by
  decide

/-- C10 (amended): every record that is processed to the end has exactly the four
disk fields `disk0..disk3`; a slot whose cell is empty or an integer holds an
integer, and that integer is non-negative when the cell is empty or a non-negative
integer and the default of the slot, if any, does not parse to a negative
integer. -/
theorem C10_disk_fields (env : Env) (inv : String) (query defaults : List (String × String))
    (cells : List String) (row out : Item) (add : Bool)
    (hrow : normalizeRow cells = some row)
    (hrun : processItem env inv query defaults (jsonRoundTrip row) = .ok (out, add)) :
    (keys out).filter isDiskField = ["disk0", "disk1", "disk2", "disk3"] ∧
    ∀ i c, i < 4 → cells.get? (9 + i) = some c → (c = "" ∨ (atoi c).2 = false) →
      ∃ n, (get out (diskKey i)).bind Value.toInt = some n ∧
        (0 ≤ (atoi c).1 →
          (∀ dflt, lookup defaults (diskKey i) = some dflt → 0 ≤ (atoi dflt).1) → 0 ≤ n) := by
  constructor
  · have hk : keys (jsonRoundTrip row) = columns := by
      rw [keys_jsonRoundTrip, normalizeRow_keys cells row hrow]
    rcases processItem_keys env inv query defaults _ out add hk hrun with e | e <;>
      rw [e] <;> decide
  · intro i c hi hc hcell
    obtain ⟨mid, mid', hstep, hmid, hout⟩ :=
      processItem_disk env inv query defaults _ out add i hi hrun
    rw [disk_before cells row hrow i hi c hc] at hmid
    have hself := diskStep_self env defaults mid mid' i hstep
    rw [hmid, ← hout] at hself
    rcases hself with ⟨_, h | ⟨dflt, hl, hv⟩⟩ | ⟨he, h | ⟨dflt, f, hl, hf, hv⟩⟩
    · exact ⟨0, by rw [h.2]; rfl, fun _ _ => le_refl _⟩
    · exact ⟨(atoi dflt).1, by rw [hv]; rfl, fun _ hd => hd dflt hl⟩
    · rcases hcell with hce | hok
      · subst hce
        simp [coerce_empty, jsonValue, isEmptyOrNil] at he
      · rw [h.2, coerce_int c hok]
        exact ⟨roundFloat64 (atoi c).1, rfl, fun h0 _ => roundFloat64_nonneg _ h0⟩
    · rcases hcell with hce | hok
      · subst hce
        simp [coerce_empty, jsonValue, isEmptyOrNil] at he
      · rw [coerce_int c hok] at hf
        simp only [jsonValue, Option.some.injEq, Value.float.injEq] at hf
        subst hf
        by_cases hlt : floatToInt env.floatOverflow (roundFloat64 (atoi c).1) <
            (if (atoi dflt).2 = true then 0 else (atoi dflt).1)
        · rw [if_pos hlt] at hv
          refine ⟨_, by rw [hv]; rfl, fun _ hd => ?_⟩
          have := hd dflt hl
          split <;> omega
        · rw [if_neg hlt] at hv
          exact ⟨_, by rw [hv]; rfl, fun h0 _ => roundFloat64_nonneg _ h0⟩

/-- C10 at a concrete row: empty `disk0` with default `20`. -/
theorem C10_disk_fields_witness :
    normalizeRow (sampleCells "2" "" "40" "") =
      some (sampleItem (.int 24) (.int 2) (.int 4096) (.str "") (.int 40) (.str "") (.str "")
        (.str "") []) ∧
    processItem (sampleEnv sampleClock []) "/dc1" [] [("disk0", "20")]
      (jsonRoundTrip (sampleItem (.int 24) (.int 2) (.int 4096) (.str "") (.int 40) (.str "")
        (.str "") (.str "") [])) =
      .ok (sampleItem (.float 24) (.float 2) (.float 4096) (.int 20) (.float 40) (.int 0)
        (.int 0) (.str "2025-03-10") [("power", .str "true")], true) ∧
    (keys (sampleItem (.float 24) (.float 2) (.float 4096) (.int 20) (.float 40) (.int 0)
        (.int 0) (.str "2025-03-10") [("power", .str "true")])).filter isDiskField =
      ["disk0", "disk1", "disk2", "disk3"] :=
  ⟨by decide, by decide,
    (C10_disk_fields (sampleEnv sampleClock []) "/dc1" [] [("disk0", "20")]
      (sampleCells "2" "" "40" "")
      (sampleItem (.int 24) (.int 2) (.int 4096) (.str "") (.int 40) (.str "") (.str "")
        (.str "") [])
      (sampleItem (.float 24) (.float 2) (.float 4096) (.int 20) (.float 40) (.int 0)
        (.int 0) (.str "2025-03-10") [("power", .str "true")])
      true (by decide) (by decide)).1⟩

/-- C10 (as stated) fails: without a default for `disk0`, the cell `-5` is
reported as `-5`; and with an empty cell the default `-5` is reported as `-5`. -/
theorem C10_counterexample :
    resultField (dataSourceVSphereCSVRead
      (sampleEnv sampleClock [.record (sampleCells "2" "-5" "" "")])
      (sampleConfig "machines.csv" [] [])) "disk0" = some [some (.float (-5))] ∧
    resultField (dataSourceVSphereCSVRead
      (sampleEnv sampleClock [.record (sampleCells "2" "" "" "")])
      (sampleConfig "machines.csv" [] [("disk0", "-5")])) "disk0" = some [some (.int (-5))] := by
  decide

end VSphereCSV
